import Mathlib

/-!
Shallow embedding of `src/gum/arch-arm/gumthumbwriter.c` (frida-gum Thumb-2
machine-code writer) and proofs about its behaviour.

Modelling conventions:
* Addresses (`GumAddress`, pointers) are `Nat` byte addresses.
* The caller-owned code buffer is a function `Nat → Nat` mapping a byte
  address to the 16-bit halfword stored there; every store truncates with
  `% 65536` (a `guint16` store).  Endianness conversions (`GUINT16_TO_LE`)
  are the identity: we model halfword values, not their byte images.
* A register operand (`arm_reg`) is modelled by its meta/index number
  0..15 (R0..R12 = 0..12, SP = 13, LR = 14, PC = 15).
* C signed arithmetic (`gint32`, `gssize`) is modelled with `Int`;
  `/` of C on signed operands is truncation toward zero, i.e. `Int.tdiv`;
  `x & mask` on a signed value is `x % (mask+1)` with Lean's `emod`
  (non-negative remainder = the low bits of the two's complement form).
-/

namespace GumThumbWriterModel

/-- Number of label definitions the writer can hold (`GUM_MAX_LABEL_COUNT`). -/
def GUM_MAX_LABEL_COUNT : Nat := 100

/-- Number of label references the writer can hold (`GUM_MAX_LREF_COUNT`). -/
def GUM_MAX_LREF_COUNT : Nat := 3 * GUM_MAX_LABEL_COUNT

/-- Number of literal references the writer can hold (`GUM_MAX_LITERAL_REF_COUNT`). -/
def GUM_MAX_LITERAL_REF_COUNT : Nat := 100

/-- Meta-register constants, from the spec's register interface
(R0..R12 are 0..12, then SP, LR, PC). -/
def GUM_ARM_MREG_R0 : Nat := 0
def GUM_ARM_MREG_R7 : Nat := 7
def GUM_ARM_MREG_R8 : Nat := 8
def GUM_ARM_MREG_SP : Nat := 13
def GUM_ARM_MREG_LR : Nat := 14
def GUM_ARM_MREG_PC : Nat := 15

/-- OS tags; only `breakpoint` consumes them.  Concrete numbers are
immaterial, they only need to be distinct. -/
def GUM_OS_LINUX : Nat := 0
def GUM_OS_ANDROID : Nat := 1

/-- Modelled from the spec: `gum_process_get_native_os` (from gumprocess.h,
not under src/) returns the host OS tag; the concrete value only selects the
`breakpoint` encoding. -/
def gum_process_get_native_os : Nat := GUM_OS_LINUX

/-- Result of `gum_arm_reg_describe`: index 0..15 plus a meta-register class. -/
structure GumArmRegInfo where
  meta : Nat
  index : Nat
deriving Repr, DecidableEq

/-- Modelled from the spec: `gum_arm_reg_describe` (gumarmreg.c, not under
src/) maps a symbolic register to `{index: 0..15, meta: R0..R12|SP|LR|PC}`;
with the numbering above, meta and index coincide. -/
def gum_arm_reg_describe (reg : Nat) : GumArmRegInfo := ⟨reg, reg⟩

/-- `struct _GumThumbLabelMapping`. -/
structure GumThumbLabelMapping where
  id : Nat
  address : Nat
deriving Repr, DecidableEq

/-- `struct _GumThumbLabelRef`; `insn` is the byte address of the halfword
to patch at flush. -/
structure GumThumbLabelRef where
  id : Nat
  insn : Nat
  pc : Nat
deriving Repr, DecidableEq

/-- `struct _GumThumbLiteralRef`. -/
structure GumThumbLiteralRef where
  val : Nat
  insn : Nat
  pc : Nat
deriving Repr, DecidableEq

/-- `enum _GumThumbMemoryOperation`. -/
inductive GumThumbMemoryOperation where
  | load
  | store
deriving Repr, DecidableEq

/-- `struct _GumThumbWriter`.  `emitted` is ghost instrumentation (not in
the source): the number of bytes the cursor has advanced since `reset`. -/
structure GumThumbWriter where
  target_os : Nat
  base : Nat
  code : Nat
  pc : Nat
  mem : Nat → Nat
  id_to_address : List GumThumbLabelMapping
  label_refs : List GumThumbLabelRef
  literal_refs : List GumThumbLiteralRef
  emitted : Nat

/-- Point update of the halfword memory. -/
def memWrite (mem : Nat → Nat) (addr v : Nat) : Nat → Nat :=
  fun a => if a = addr then v else mem a

/-- `gum_thumb_writer_reset`. -/
def gum_thumb_writer_reset (writer : GumThumbWriter) (code_address : Nat) :
    GumThumbWriter :=
  { writer with
    target_os := gum_process_get_native_os
    base := code_address
    code := code_address
    pc := code_address
    id_to_address := []
    label_refs := []
    literal_refs := []
    emitted := 0 }

/-- `gum_thumb_writer_new` / `gum_thumb_writer_init`: a fresh writer over a
zeroed buffer, then reset. -/
def gum_thumb_writer_new (code_address : Nat) : GumThumbWriter :=
  gum_thumb_writer_reset
    { target_os := gum_process_get_native_os
      base := 0, code := 0, pc := 0
      mem := fun _ => 0
      id_to_address := [], label_refs := [], literal_refs := []
      emitted := 0 }
    code_address

/-- `gum_thumb_writer_set_target_os`. -/
def gum_thumb_writer_set_target_os (self : GumThumbWriter) (os : Nat) :
    GumThumbWriter :=
  { self with target_os := os }

/-- `gum_thumb_writer_offset` (bytes written so far). -/
def gum_thumb_writer_offset (self : GumThumbWriter) : Nat :=
  self.code - self.base

/-- `gum_thumb_writer_skip`. -/
def gum_thumb_writer_skip (self : GumThumbWriter) (n_bytes : Nat) :
    GumThumbWriter :=
  { self with
    code := self.code + n_bytes
    pc := self.pc + n_bytes
    emitted := self.emitted + n_bytes }

/-- `gum_thumb_writer_put_instruction`: store one halfword at the cursor and
advance `code` (2 bytes) and `pc` in lockstep. -/
def gum_thumb_writer_put_instruction (self : GumThumbWriter) (insn : Nat) :
    GumThumbWriter :=
  { self with
    mem := memWrite self.mem self.code (insn % 65536)
    code := self.code + 2
    pc := self.pc + 2
    emitted := self.emitted + 2 }

/-- Pair up a little-endian byte list into halfword values. -/
def bytesToHalfwords : List Nat → List Nat
  | [] => []
  | [b] => [b % 256]
  | b0 :: b1 :: rest => (b0 % 256 + 256 * (b1 % 256)) :: bytesToHalfwords rest

/-- Store a run of halfwords starting at `addr`. -/
def writeHalfwords (mem : Nat → Nat) (addr : Nat) : List Nat → (Nat → Nat)
  | [] => mem
  | h :: t => writeHalfwords (memWrite mem addr (h % 65536)) (addr + 2) t

/-- `gum_thumb_writer_put_bytes`: length must be even; copied verbatim. -/
def gum_thumb_writer_put_bytes (self : GumThumbWriter) (data : List Nat) :
    Bool × GumThumbWriter :=
  if data.length % 2 ≠ 0 then (false, self)
  else
    (true,
      { self with
        mem := writeHalfwords self.mem self.code (bytesToHalfwords data)
        code := self.code + data.length
        pc := self.pc + data.length
        emitted := self.emitted + data.length })

/-- Linear scan of the label table (`gum_thumb_writer_lookup_address_for_label_id`
loop body); returns 0 when the id is absent. -/
def lookupLabelAddress : List GumThumbLabelMapping → Nat → Nat
  | [], _ => 0
  | m :: rest, id => if m.id = id then m.address else lookupLabelAddress rest id

/-- `gum_thumb_writer_lookup_address_for_label_id`. -/
def gum_thumb_writer_lookup_address_for_label_id (self : GumThumbWriter)
    (id : Nat) : Nat :=
  lookupLabelAddress self.id_to_address id

/-- `gum_thumb_writer_add_address_for_label_id`. -/
def gum_thumb_writer_add_address_for_label_id (self : GumThumbWriter)
    (id address : Nat) : Bool × GumThumbWriter :=
  if self.id_to_address.length = GUM_MAX_LABEL_COUNT then (false, self)
  else
    (true, { self with id_to_address := self.id_to_address ++ [⟨id, address⟩] })

/-- `gum_thumb_writer_put_label`. -/
def gum_thumb_writer_put_label (self : GumThumbWriter) (id : Nat) :
    Bool × GumThumbWriter :=
  if gum_thumb_writer_lookup_address_for_label_id self id ≠ 0 then (false, self)
  else gum_thumb_writer_add_address_for_label_id self id self.pc

/-- `gum_thumb_writer_add_label_reference_here`. -/
def gum_thumb_writer_add_label_reference_here (self : GumThumbWriter)
    (id : Nat) : Bool × GumThumbWriter :=
  if self.label_refs.length = GUM_MAX_LREF_COUNT then (false, self)
  else
    (true,
      { self with
        label_refs := self.label_refs ++ [⟨id, self.code, self.pc + 4⟩] })

/-- `gum_thumb_writer_add_literal_reference_here`; `val` is a `guint32`. -/
def gum_thumb_writer_add_literal_reference_here (self : GumThumbWriter)
    (val : Nat) : Bool × GumThumbWriter :=
  if self.literal_refs.length = GUM_MAX_LITERAL_REF_COUNT then (false, self)
  else
    (true,
      { self with
        literal_refs :=
          self.literal_refs ++ [⟨val % 4294967296, self.code, self.pc + 4⟩] })

/-- Truncating cast of a mathematical integer to `guint32`. -/
def toUInt32 (n : Int) : Nat := (n % 4294967296).toNat

/-- Cast of a `Nat` (e.g. a `GumAddress`) to `gint32`: truncate to 32 bits
and reinterpret as signed. -/
def toInt32ofNat (n : Nat) : Int :=
  if n % 4294967296 < 2147483648 then (n % 4294967296 : Int)
  else (n % 4294967296 : Int) - 4294967296

/-- Bit masks from gumdefs.h (values fixed by their names). -/
def GUM_INT5_MASK : Nat := 0x1F
def GUM_INT8_MASK : Nat := 0xFF
def GUM_INT10_MASK : Nat := 0x3FF
def GUM_INT11_MASK : Nat := 0x7FF

/-- Modelled from the spec: `GUM_IS_WITHIN_INT8_RANGE` (gumdefs.h, not under
src/); the spec's flush step requires the conditional-branch distance to
"fit in signed 8 bits". -/
def GUM_IS_WITHIN_INT8_RANGE (d : Int) : Bool :=
  decide (-128 ≤ d ∧ d ≤ 127)

/-- Modelled from the spec: `GUM_IS_WITHIN_INT11_RANGE` (gumdefs.h, not
under src/); the spec requires "signed 11 bits" for the T2 branch. -/
def GUM_IS_WITHIN_INT11_RANGE (d : Int) : Bool :=
  decide (-1024 ≤ d ∧ d ≤ 1023)

/-- Modelled from the spec: `GUM_IS_WITHIN_UINT7_RANGE` (gumdefs.h, not
under src/); the spec requires "unsigned 7 bits" for the cbz/cbnz distance,
i.e. 0 ≤ d ≤ 127. -/
def GUM_IS_WITHIN_UINT7_RANGE (d : Int) : Bool :=
  decide (0 ≤ d ∧ d ≤ 127)

/-- `gum_instruction_is_t1_load`. -/
def gum_instruction_is_t1_load (instruction : Nat) : Bool :=
  instruction &&& 0xF800 = 0x4800

/-- `gum_thumb_writer_put_branch_imm` (T4 encoding).  The source clears
bit 0 of `target` unconditionally: `target & ~((GumAddress) 1)`, here
`target - target % 2`. -/
def gum_thumb_writer_put_branch_imm (self : GumThumbWriter) (target : Nat)
    (link thumb : Bool) : GumThumbWriter :=
  let distance_i : Int :=
    (toInt32ofNat (target - target % 2) - toInt32ofNat (self.pc + 4)).tdiv 2
  let distance_u : Nat := toUInt32 distance_i
  let s := (distance_u >>> 31) &&& 1
  let j1 := 1 - (((distance_u >>> 22) ^^^ s) &&& 1)
  let j2 := 1 - (((distance_u >>> 21) ^^^ s) &&& 1)
  let imm10 := (distance_u >>> 11) &&& GUM_INT10_MASK
  let imm11 := distance_u &&& GUM_INT11_MASK
  let self := gum_thumb_writer_put_instruction self
    (0xF000 ||| (s <<< 10) ||| imm10)
  gum_thumb_writer_put_instruction self
    (0x8000 ||| ((if link then 1 else 0) <<< 14) ||| (j1 <<< 13) |||
      ((if thumb then 1 else 0) <<< 12) ||| (j2 <<< 11) ||| imm11)

/-- `gum_thumb_writer_put_b_imm`. -/
def gum_thumb_writer_put_b_imm (self : GumThumbWriter) (target : Nat) :
    GumThumbWriter :=
  gum_thumb_writer_put_branch_imm self target false true

/-- `gum_thumb_writer_put_bl_imm`. -/
def gum_thumb_writer_put_bl_imm (self : GumThumbWriter) (target : Nat) :
    GumThumbWriter :=
  gum_thumb_writer_put_branch_imm self target true true

/-- `gum_thumb_writer_put_blx_imm`. -/
def gum_thumb_writer_put_blx_imm (self : GumThumbWriter) (target : Nat) :
    GumThumbWriter :=
  gum_thumb_writer_put_branch_imm self target true false

/-- `gum_thumb_writer_put_bx_reg`. -/
def gum_thumb_writer_put_bx_reg (self : GumThumbWriter) (reg : Nat) :
    GumThumbWriter :=
  let ri := gum_arm_reg_describe reg
  gum_thumb_writer_put_instruction self (0x4700 ||| (ri.index <<< 3))

/-- `gum_thumb_writer_put_blx_reg`. -/
def gum_thumb_writer_put_blx_reg (self : GumThumbWriter) (reg : Nat) :
    GumThumbWriter :=
  let ri := gum_arm_reg_describe reg
  gum_thumb_writer_put_instruction self (0x4780 ||| (ri.index <<< 3))

/-- `gum_thumb_writer_put_cmp_reg_imm`. -/
def gum_thumb_writer_put_cmp_reg_imm (self : GumThumbWriter)
    (reg imm_value : Nat) : GumThumbWriter :=
  let ri := gum_arm_reg_describe reg
  gum_thumb_writer_put_instruction self
    (0x2800 ||| (ri.index <<< 8) ||| imm_value % 256)

/-- `gum_thumb_writer_put_b_label`. -/
def gum_thumb_writer_put_b_label (self : GumThumbWriter) (label_id : Nat) :
    Bool × GumThumbWriter :=
  match gum_thumb_writer_add_label_reference_here self label_id with
  | (false, self) => (false, self)
  | (true, self) => (true, gum_thumb_writer_put_instruction self 0xE000)

/-- Capstone condition-code values used by the source. -/
def ARM_CC_EQ : Nat := 1
def ARM_CC_NE : Nat := 2

/-- `gum_thumb_writer_put_b_cond_label`. -/
def gum_thumb_writer_put_b_cond_label (self : GumThumbWriter) (cc : Nat)
    (label_id : Nat) : Bool × GumThumbWriter :=
  match gum_thumb_writer_add_label_reference_here self label_id with
  | (false, self) => (false, self)
  | (true, self) =>
      (true, gum_thumb_writer_put_instruction self (0xD000 ||| ((cc - 1) <<< 8)))

/-- `gum_thumb_writer_put_beq_label`. -/
def gum_thumb_writer_put_beq_label (self : GumThumbWriter) (label_id : Nat) :
    Bool × GumThumbWriter :=
  gum_thumb_writer_put_b_cond_label self ARM_CC_EQ label_id

/-- `gum_thumb_writer_put_bne_label`. -/
def gum_thumb_writer_put_bne_label (self : GumThumbWriter) (label_id : Nat) :
    Bool × GumThumbWriter :=
  gum_thumb_writer_put_b_cond_label self ARM_CC_NE label_id

/-- `gum_thumb_writer_put_cbz_reg_label`. -/
def gum_thumb_writer_put_cbz_reg_label (self : GumThumbWriter) (reg : Nat)
    (label_id : Nat) : Bool × GumThumbWriter :=
  let ri := gum_arm_reg_describe reg
  match gum_thumb_writer_add_label_reference_here self label_id with
  | (false, self) => (false, self)
  | (true, self) =>
      (true, gum_thumb_writer_put_instruction self (0xB100 ||| ri.index))

/-- `gum_thumb_writer_put_cbnz_reg_label`. -/
def gum_thumb_writer_put_cbnz_reg_label (self : GumThumbWriter) (reg : Nat)
    (label_id : Nat) : Bool × GumThumbWriter :=
  let ri := gum_arm_reg_describe reg
  match gum_thumb_writer_add_label_reference_here self label_id with
  | (false, self) => (false, self)
  | (true, self) =>
      (true, gum_thumb_writer_put_instruction self (0xB900 ||| ri.index))

/-- `gum_thumb_writer_put_push_or_pop_regs`. -/
def gum_thumb_writer_put_push_or_pop_regs (self : GumThumbWriter)
    (narrow_opcode wide_opcode : Nat) (special_reg : Nat)
    (regs : List Nat) : Bool × GumThumbWriter :=
  if regs.length = 0 then (false, self)
  else
    let items := regs.map gum_arm_reg_describe
    let need_wide_instruction := items.any fun ri =>
      ¬ (GUM_ARM_MREG_R0 ≤ ri.meta ∧ ri.meta ≤ GUM_ARM_MREG_R7) ∧
        ri.meta ≠ special_reg
    if need_wide_instruction then
      let mask := items.foldl (fun mask ri => mask ||| (1 <<< ri.index)) 0
      let self := gum_thumb_writer_put_instruction self wide_opcode
      (true, gum_thumb_writer_put_instruction self mask)
    else
      let insn := items.foldl
        (fun insn ri =>
          if ri.meta = special_reg then insn ||| 0x0100
          else insn ||| (1 <<< ri.index))
        narrow_opcode
      (true, gum_thumb_writer_put_instruction self insn)

/-- `gum_thumb_writer_put_push_regs_array`. -/
def gum_thumb_writer_put_push_regs_array (self : GumThumbWriter)
    (regs : List Nat) : Bool × GumThumbWriter :=
  gum_thumb_writer_put_push_or_pop_regs self 0xB400 0xE92D GUM_ARM_MREG_LR regs

/-- `gum_thumb_writer_put_pop_regs_array`. -/
def gum_thumb_writer_put_pop_regs_array (self : GumThumbWriter)
    (regs : List Nat) : Bool × GumThumbWriter :=
  gum_thumb_writer_put_push_or_pop_regs self 0xBC00 0xE8BD GUM_ARM_MREG_PC regs

/-- `gum_thumb_writer_put_ldr_reg_u32`. -/
def gum_thumb_writer_put_ldr_reg_u32 (self : GumThumbWriter) (reg val : Nat) :
    Bool × GumThumbWriter :=
  let ri := gum_arm_reg_describe reg
  match gum_thumb_writer_add_literal_reference_here self val with
  | (false, self) => (false, self)
  | (true, self) =>
      if ri.meta ≤ GUM_ARM_MREG_R7 then
        (true, gum_thumb_writer_put_instruction self (0x4800 ||| (ri.index <<< 8)))
      else
        let add := true
        let self := gum_thumb_writer_put_instruction self
          (0xF85F ||| ((if add then 1 else 0) <<< 7))
        (true, gum_thumb_writer_put_instruction self (ri.index <<< 12))

/-- `gum_thumb_writer_put_ldr_reg_address` (`address` cast to `guint32`). -/
def gum_thumb_writer_put_ldr_reg_address (self : GumThumbWriter)
    (reg address : Nat) : Bool × GumThumbWriter :=
  gum_thumb_writer_put_ldr_reg_u32 self reg (address % 4294967296)

/-- `gum_thumb_writer_put_transfer_reg_reg_offset`. -/
def gum_thumb_writer_put_transfer_reg_reg_offset (self : GumThumbWriter)
    (operation : GumThumbMemoryOperation) (left_reg right_reg : Nat)
    (right_offset : Nat) : Bool × GumThumbWriter :=
  let lr := gum_arm_reg_describe left_reg
  let rr := gum_arm_reg_describe right_reg
  if lr.meta ≤ GUM_ARM_MREG_R7 ∧
      (rr.meta ≤ GUM_ARM_MREG_R7 ∨ rr.meta = GUM_ARM_MREG_SP) ∧
      ((rr.meta = GUM_ARM_MREG_SP ∧ right_offset ≤ 1020) ∨
        (rr.meta ≠ GUM_ARM_MREG_SP ∧ right_offset ≤ 124)) ∧
      right_offset % 4 = 0 then
    let insn :=
      if rr.meta = GUM_ARM_MREG_SP then
        0x9000 ||| (lr.index <<< 8) ||| (right_offset / 4)
      else
        0x6000 ||| ((right_offset / 4) <<< 6) ||| (rr.index <<< 3) ||| lr.index
    let insn :=
      if operation = GumThumbMemoryOperation.load then insn ||| 0x0800 else insn
    (true, gum_thumb_writer_put_instruction self insn)
  else
    if right_offset > 4095 then (false, self)
    else
      let self := gum_thumb_writer_put_instruction self
        (0xF8C0 |||
          (if operation = GumThumbMemoryOperation.load then 0x0010 else 0x0000) |||
          rr.index)
      (true,
        gum_thumb_writer_put_instruction self ((lr.index <<< 12) ||| right_offset))

/-- `gum_thumb_writer_put_ldr_reg_reg_offset`. -/
def gum_thumb_writer_put_ldr_reg_reg_offset (self : GumThumbWriter)
    (dst_reg src_reg src_offset : Nat) : Bool × GumThumbWriter :=
  gum_thumb_writer_put_transfer_reg_reg_offset self
    GumThumbMemoryOperation.load dst_reg src_reg src_offset

/-- `gum_thumb_writer_put_ldr_reg_reg`. -/
def gum_thumb_writer_put_ldr_reg_reg (self : GumThumbWriter)
    (dst_reg src_reg : Nat) : Bool × GumThumbWriter :=
  gum_thumb_writer_put_ldr_reg_reg_offset self dst_reg src_reg 0

/-- `gum_thumb_writer_put_str_reg_reg_offset`. -/
def gum_thumb_writer_put_str_reg_reg_offset (self : GumThumbWriter)
    (src_reg dst_reg dst_offset : Nat) : Bool × GumThumbWriter :=
  gum_thumb_writer_put_transfer_reg_reg_offset self
    GumThumbMemoryOperation.store src_reg dst_reg dst_offset

/-- `gum_thumb_writer_put_str_reg_reg`. -/
def gum_thumb_writer_put_str_reg_reg (self : GumThumbWriter)
    (src_reg dst_reg : Nat) : Bool × GumThumbWriter :=
  gum_thumb_writer_put_str_reg_reg_offset self src_reg dst_reg 0

/-- `gum_thumb_writer_put_mov_reg_reg`. -/
def gum_thumb_writer_put_mov_reg_reg (self : GumThumbWriter)
    (dst_reg src_reg : Nat) : GumThumbWriter :=
  let dst := gum_arm_reg_describe dst_reg
  let src := gum_arm_reg_describe src_reg
  let insn :=
    if dst.meta ≤ GUM_ARM_MREG_R7 ∧ src.meta ≤ GUM_ARM_MREG_R7 then
      0x1C00 ||| (src.index <<< 3) ||| dst.index
    else
      let dst_is_high := if dst.meta > GUM_ARM_MREG_R7 then 1 else 0
      let dst_index :=
        if dst.meta > GUM_ARM_MREG_R7 then dst.index - GUM_ARM_MREG_R8
        else dst.index
      0x4600 ||| (dst_is_high <<< 7) ||| (src.index <<< 3) ||| dst_index
  gum_thumb_writer_put_instruction self insn

/-- `gum_thumb_writer_put_mov_reg_u8`. -/
def gum_thumb_writer_put_mov_reg_u8 (self : GumThumbWriter)
    (dst_reg imm_value : Nat) : GumThumbWriter :=
  let dst := gum_arm_reg_describe dst_reg
  gum_thumb_writer_put_instruction self
    (0x2000 ||| (dst.index <<< 8) ||| imm_value % 256)

/-- `gum_thumb_writer_put_add_reg_imm` (`imm_value` is a `gssize`).  Note
the non-SP branch has no magnitude check in the source. -/
def gum_thumb_writer_put_add_reg_imm (self : GumThumbWriter) (dst_reg : Nat)
    (imm_value : Int) : Bool × GumThumbWriter :=
  let dst := gum_arm_reg_describe dst_reg
  if dst.meta = GUM_ARM_MREG_SP then
    if imm_value % 4 ≠ 0 then (false, self)
    else
      let sign_mask : Nat := if imm_value < 0 then 0x0080 else 0x0000
      (true,
        gum_thumb_writer_put_instruction self
          (0xB000 ||| sign_mask ||| (imm_value.tdiv 4).natAbs))
  else
    let sign_mask : Nat := if imm_value < 0 then 0x0800 else 0x0000
    (true,
      gum_thumb_writer_put_instruction self
        (0x3000 ||| sign_mask ||| (dst.index <<< 8) ||| imm_value.natAbs))

/-- `gum_thumb_writer_put_sub_reg_imm`. -/
def gum_thumb_writer_put_sub_reg_imm (self : GumThumbWriter) (dst_reg : Nat)
    (imm_value : Int) : Bool × GumThumbWriter :=
  gum_thumb_writer_put_add_reg_imm self dst_reg (-imm_value)

/-- `gum_thumb_writer_put_add_reg_reg_reg`. -/
def gum_thumb_writer_put_add_reg_reg_reg (self : GumThumbWriter)
    (dst_reg left_reg right_reg : Nat) : GumThumbWriter :=
  let dst := gum_arm_reg_describe dst_reg
  let left := gum_arm_reg_describe left_reg
  let right := gum_arm_reg_describe right_reg
  let insn :=
    if left.meta = dst.meta then
      let base := 0x4400
      let base :=
        if dst.meta ≤ GUM_ARM_MREG_R7 then base ||| dst.index
        else base ||| 0x0080 ||| (dst.index - GUM_ARM_MREG_R8)
      base ||| (right.index <<< 3)
    else
      0x1800 ||| (right.index <<< 6) ||| (left.index <<< 3) ||| dst.index
  gum_thumb_writer_put_instruction self insn

/-- `gum_thumb_writer_put_add_reg_reg`. -/
def gum_thumb_writer_put_add_reg_reg (self : GumThumbWriter)
    (dst_reg src_reg : Nat) : GumThumbWriter :=
  gum_thumb_writer_put_add_reg_reg_reg self dst_reg dst_reg src_reg

/-- `gum_thumb_writer_put_add_reg_reg_imm`. -/
def gum_thumb_writer_put_add_reg_reg_imm (self : GumThumbWriter)
    (dst_reg left_reg : Nat) (right_value : Int) : Bool × GumThumbWriter :=
  let dst := gum_arm_reg_describe dst_reg
  let left := gum_arm_reg_describe left_reg
  if left.meta = dst.meta then
    gum_thumb_writer_put_add_reg_imm self dst_reg right_value
  else if left.meta = GUM_ARM_MREG_SP ∨ left.meta = GUM_ARM_MREG_PC then
    if right_value < 0 ∨ right_value % 4 ≠ 0 then (false, self)
    else
      let base_mask : Nat := if left.meta = GUM_ARM_MREG_SP then 0x0800 else 0x0000
      (true,
        gum_thumb_writer_put_instruction self
          (0xA000 ||| base_mask ||| (dst.index <<< 8) ||| (right_value.tdiv 4).natAbs))
  else
    if right_value.natAbs > 7 then (false, self)
    else
      let sign_mask : Nat := if right_value < 0 then 0x0200 else 0x0000
      (true,
        gum_thumb_writer_put_instruction self
          (0x1C00 ||| sign_mask ||| (right_value.natAbs <<< 6) |||
            (left.index <<< 3) ||| dst.index))

/-- `gum_thumb_writer_put_sub_reg_reg_reg`. -/
def gum_thumb_writer_put_sub_reg_reg_reg (self : GumThumbWriter)
    (dst_reg left_reg right_reg : Nat) : GumThumbWriter :=
  let dst := gum_arm_reg_describe dst_reg
  let left := gum_arm_reg_describe left_reg
  let right := gum_arm_reg_describe right_reg
  gum_thumb_writer_put_instruction self
    (0x1A00 ||| (right.index <<< 6) ||| (left.index <<< 3) ||| dst.index)

/-- `gum_thumb_writer_put_sub_reg_reg`. -/
def gum_thumb_writer_put_sub_reg_reg (self : GumThumbWriter)
    (dst_reg src_reg : Nat) : GumThumbWriter :=
  gum_thumb_writer_put_sub_reg_reg_reg self dst_reg dst_reg src_reg

/-- `gum_thumb_writer_put_sub_reg_reg_imm`. -/
def gum_thumb_writer_put_sub_reg_reg_imm (self : GumThumbWriter)
    (dst_reg left_reg : Nat) (right_value : Int) : Bool × GumThumbWriter :=
  gum_thumb_writer_put_add_reg_reg_imm self dst_reg left_reg (-right_value)

/-- `gum_thumb_writer_put_nop`. -/
def gum_thumb_writer_put_nop (self : GumThumbWriter) : GumThumbWriter :=
  gum_thumb_writer_put_instruction self 0x46C0

/-- `gum_thumb_writer_put_bkpt_imm`. -/
def gum_thumb_writer_put_bkpt_imm (self : GumThumbWriter) (imm : Nat) :
    GumThumbWriter :=
  gum_thumb_writer_put_instruction self (0xBE00 ||| imm % 256)

/-- `gum_thumb_writer_put_breakpoint`. -/
def gum_thumb_writer_put_breakpoint (self : GumThumbWriter) : GumThumbWriter :=
  if self.target_os = GUM_OS_LINUX ∨ self.target_os = GUM_OS_ANDROID then
    gum_thumb_writer_put_instruction self 0xDE01
  else
    gum_thumb_writer_put_bx_reg (gum_thumb_writer_put_bkpt_imm self 0)
      GUM_ARM_MREG_LR

/-- The label-fixup loop of `gum_thumb_writer_flush`: patch each reference
in insertion order; on the first failure return `false` together with the
memory as patched so far (the source jumps to `error` without rolling back).
The cbz/cbnz shifts read `distance` after the unsigned-7-bit check, so the
non-negative `distance.toNat` is exact there. -/
def processLabelRefs (labels : List GumThumbLabelMapping) (mem : Nat → Nat) :
    List GumThumbLabelRef → Bool × (Nat → Nat)
  | [] => (true, mem)
  | r :: rest =>
    let target_address := lookupLabelAddress labels r.id
    if target_address = 0 then (false, mem)
    else
      let distance : Int :=
        (toInt32ofNat target_address - toInt32ofNat r.pc).tdiv 2
      let insn := mem r.insn
      if insn &&& 0xF000 = 0xD000 then
        if GUM_IS_WITHIN_INT8_RANGE distance = false then (false, mem)
        else
          processLabelRefs labels
            (memWrite mem r.insn
              ((insn ||| (distance % (GUM_INT8_MASK + 1)).toNat) % 65536))
            rest
      else if insn &&& 0xF800 = 0xE000 then
        if GUM_IS_WITHIN_INT11_RANGE distance = false then (false, mem)
        else
          processLabelRefs labels
            (memWrite mem r.insn
              ((insn ||| (distance % (GUM_INT11_MASK + 1)).toNat) % 65536))
            rest
      else
        if GUM_IS_WITHIN_UINT7_RANGE distance = false then (false, mem)
        else
          let i := (distance.toNat >>> 5) &&& 1
          let imm5 := distance.toNat &&& GUM_INT5_MASK
          processLabelRefs labels
            (memWrite mem r.insn ((insn ||| (i <<< 9) ||| (imm5 <<< 3)) % 65536))
            rest

/-- Read a 32-bit literal-pool slot (two little-endian halfwords). -/
def readSlot (mem : Nat → Nat) (addr : Nat) : Nat :=
  mem addr + 65536 * mem (addr + 2)

/-- Store a 32-bit value into a literal-pool slot. -/
def writeSlot (mem : Nat → Nat) (addr v : Nat) : Nat → Nat :=
  memWrite (memWrite mem addr (v % 65536)) (addr + 2) (v / 65536 % 65536)

/-- The slot scan `for (slot = first_slot; slot != last_slot; slot++)`:
given `n` already-allocated slots starting at `addr`, return the index of
the first slot holding `val`, or `n` if none does. -/
def findSlotIdx (mem : Nat → Nat) (addr val : Nat) : Nat → Nat
  | 0 => 0
  | n + 1 =>
      if readSlot mem addr = val then 0
      else findSlotIdx mem (addr + 4) val n + 1

/-- Mutable state of the literal-pool loop inside flush: the memory, the
three cursor fields of the writer, and `last_slot`. -/
structure LitFlushState where
  mem : Nat → Nat
  code : Nat
  pc : Nat
  emitted : Nat
  last_slot : Nat

/-- One iteration of the literal-pool loop of `gum_thumb_writer_flush`:
reuse or allocate a slot for `r.val` (dedup by 32-bit value), then
back-patch the load instruction with the byte distance from the
word-aligned reference pc to the slot.  Returns the new state and, as
instrumentation, the byte address of the slot used. -/
def processLiteralRef (first_slot : Nat) (r : GumThumbLiteralRef)
    (st : LitFlushState) : LitFlushState × Nat :=
  let insn := st.mem r.insn
  let nslots := (st.last_slot - first_slot) / 4
  let k := findSlotIdx st.mem first_slot r.val nslots
  let slotAddr := first_slot + 4 * k
  let st1 :=
    if k = nslots then
      { st with
        mem := writeSlot st.mem slotAddr r.val
        code := st.code + 4
        pc := st.pc + 4
        emitted := st.emitted + 4
        last_slot := st.last_slot + 4 }
    else st
  let slot_pc := st1.pc - (st1.last_slot - first_slot) + (slotAddr - first_slot)
  let distance_in_bytes := slot_pc - (r.pc - r.pc % 4)
  let st2 :=
    if gum_instruction_is_t1_load insn then
      { st1 with
        mem := memWrite st1.mem r.insn
          ((insn ||| (distance_in_bytes / 4)) % 65536) }
    else
      { st1 with
        mem := memWrite st1.mem (r.insn + 2)
          ((st1.mem (r.insn + 2) ||| distance_in_bytes) % 65536) }
  (st2, slotAddr)

/-- The literal-pool loop of `gum_thumb_writer_flush`, over all recorded
references in insertion order. -/
def processLiteralRefs (first_slot : Nat) :
    List GumThumbLiteralRef → LitFlushState → LitFlushState × List Nat
  | [], st => (st, [])
  | r :: rest, st =>
    let s := processLiteralRef first_slot r st
    let out := processLiteralRefs first_slot rest s.1
    (out.1, s.2 :: out.2)

/-- Instrumented result of a flush: the success flag and new writer state,
plus ghost observations of the literal-pool phase (where the pool started,
whether the alignment nop was emitted, which slot each reference used). -/
structure FlushTrace where
  ok : Bool
  w : GumThumbWriter
  pool_first : Option Nat
  aligned_nop : Bool
  used_slots : List Nat

/-- The literal-pool section of `gum_thumb_writer_flush` (run when the
literal-reference table is non-empty): scan for a T1 load needing an
aligned pool, emit the alignment nop when the pc is not word-aligned, then
emit and patch the pool. -/
def flushPool (self1 : GumThumbWriter) : FlushTrace :=
  let need_aligned_slots := self1.literal_refs.any fun r =>
    gum_instruction_is_t1_load (self1.mem r.insn)
  let do_nop := need_aligned_slots && decide (self1.pc % 4 ≠ 0)
  let self2 := if do_nop then gum_thumb_writer_put_nop self1 else self1
  let first_slot := self2.code
  let st0 : LitFlushState :=
    ⟨self2.mem, self2.code, self2.pc, self2.emitted, first_slot⟩
  let out := processLiteralRefs first_slot self2.literal_refs st0
  { ok := true
    w := { self2 with
           mem := out.1.mem, code := out.1.code, pc := out.1.pc
           emitted := out.1.emitted, literal_refs := [] }
    pool_first := some first_slot
    aligned_nop := do_nop
    used_slots := out.2 }

/-- `gum_thumb_writer_flush`, with ghost observations. -/
def gum_thumb_writer_flush_trace (self : GumThumbWriter) : FlushTrace :=
  let lr := processLabelRefs self.id_to_address self.mem self.label_refs
  if lr.1 = false then
    { ok := false
      w := { self with mem := lr.2, label_refs := [], literal_refs := [] }
      pool_first := none, aligned_nop := false, used_slots := [] }
  else
    let self1 := { self with mem := lr.2, label_refs := ([] : List GumThumbLabelRef) }
    if self1.literal_refs.length ≠ 0 then flushPool self1
    else
      { ok := true, w := self1
        pool_first := none, aligned_nop := false, used_slots := [] }

/-- `gum_thumb_writer_flush`. -/
def gum_thumb_writer_flush (self : GumThumbWriter) : Bool × GumThumbWriter :=
  let t := gum_thumb_writer_flush_trace self
  (t.ok, t.w)

/-- Claim-side definition (follows claim C1's words, not the source): the
T4 branch emitter with the target address entering the displacement
computation unmodified; bit packing as in the source. -/
def put_branch_imm_claimed (self : GumThumbWriter) (target : Nat)
    (link thumb : Bool) : GumThumbWriter :=
  let distance_i : Int :=
    (toInt32ofNat target - toInt32ofNat (self.pc + 4)).tdiv 2
  let distance_u : Nat := toUInt32 distance_i
  let s := (distance_u >>> 31) &&& 1
  let j1 := 1 - (((distance_u >>> 22) ^^^ s) &&& 1)
  let j2 := 1 - (((distance_u >>> 21) ^^^ s) &&& 1)
  let imm10 := (distance_u >>> 11) &&& GUM_INT10_MASK
  let imm11 := distance_u &&& GUM_INT11_MASK
  let self := gum_thumb_writer_put_instruction self
    (0xF000 ||| (s <<< 10) ||| imm10)
  gum_thumb_writer_put_instruction self
    (0x8000 ||| ((if link then 1 else 0) <<< 14) ||| (j1 <<< 13) |||
      ((if thumb then 1 else 0) <<< 12) ||| (j2 <<< 11) ||| imm11)

/-- Writer for the C2 failing input: `cbz r0, L` at 0x1000 with `L` defined
128 bytes after the reference pc (reference pc 0x1004, label pc 0x1084). -/
def cbzForward128 : GumThumbWriter :=
  let w := gum_thumb_writer_new 0x1000
  let w := (gum_thumb_writer_put_cbz_reg_label w 0 1).2
  let w := gum_thumb_writer_skip w 130
  (gum_thumb_writer_put_label w 1).2

/-- Writer with `cbz r0, L` and `L` 126 bytes after the reference pc. -/
def cbzForward126 : GumThumbWriter :=
  let w := gum_thumb_writer_new 0x1000
  let w := (gum_thumb_writer_put_cbz_reg_label w 0 1).2
  let w := gum_thumb_writer_skip w 128
  (gum_thumb_writer_put_label w 1).2

/-- Writer with `cbz r0, L` and `L` defined before the instruction
(backward branch). -/
def cbzBackward : GumThumbWriter :=
  let w := gum_thumb_writer_new 0x1000
  let w := (gum_thumb_writer_put_label w 1).2
  let w := gum_thumb_writer_skip w 2
  (gum_thumb_writer_put_cbz_reg_label w 0 1).2

/-- Writers for the C10 scenario: reset at address 0, define label 5, define
it again, then reference it. -/
def labelAtZeroOnce : Bool × GumThumbWriter :=
  gum_thumb_writer_put_label (gum_thumb_writer_new 0) 5

def labelAtZeroTwice : Bool × GumThumbWriter :=
  gum_thumb_writer_put_label labelAtZeroOnce.2 5

def labelAtZeroReferenced : GumThumbWriter :=
  (gum_thumb_writer_put_b_label labelAtZeroTwice.2 5).2

/-- Claim C1 counterexample: at pc 0x1000 with the odd target 0xFFF,
`gum_thumb_writer_put_b_imm` emits second halfword 0xBFFD (the source
cleared bit 0 of the target: distance (0xFFE − 0x1004)/2 = −3), whereas the
claim's displacement computation with the target unmodified
(distance (0xFFF − 0x1004)/2 = −2) yields 0xBFFE. -/
theorem gum_C1_counterexample :
    (gum_thumb_writer_put_b_imm (gum_thumb_writer_new 0x1000) 0xFFF).mem
        0x1002 = 0xBFFD ∧
    (put_branch_imm_claimed (gum_thumb_writer_new 0x1000) 0xFFF false
        true).mem 0x1002 = 0xBFFE ∧
    (gum_thumb_writer_put_b_imm (gum_thumb_writer_new 0x1000) 0xFFF).mem
        0x1002 ≠
      (put_branch_imm_claimed (gum_thumb_writer_new 0x1000) 0xFFF false
        true).mem 0x1002 := by
  refine ⟨by decide, by decide, by decide⟩

/-- Claim C1 (amended): for every immediate-branch variant — b, bl and
blx — the source clears bit 0 of the target address before computing the
T4 displacement; each emitter coincides with the claim's
unmodified-target computation applied to `target` with bit 0 cleared
(`target - target % 2`). -/
theorem gum_C1_amended (self : GumThumbWriter) (target : Nat) :
    gum_thumb_writer_put_b_imm self target =
      put_branch_imm_claimed self (target - target % 2) false true ∧
    gum_thumb_writer_put_bl_imm self target =
      put_branch_imm_claimed self (target - target % 2) true true ∧
    gum_thumb_writer_put_blx_imm self target =
      put_branch_imm_claimed self (target - target % 2) true false :=
  ⟨rfl, rfl, rfl⟩

/-- Claim C2 (code-bug evidence): a `cbz` whose label sits 128 bytes after
the reference pc passes flush (returning true) and leaves the displacement
field all-zero (halfword 0xB100), because the source range-checks the
halfword distance (64 here) against 0..127 instead of the 0..63 that the
6-bit i:imm5 field can encode; a 126-byte forward distance is correctly
encoded (0xB3F8) and a backward label fails flush as the claim states. -/
theorem gum_C2_cbz_overlong_distance_accepted :
    (gum_thumb_writer_flush cbzForward128).1 = true ∧
    (gum_thumb_writer_flush cbzForward128).2.mem 0x1000 = 0xB100 ∧
    lookupLabelAddress cbzForward128.id_to_address 1 = 0x1084 ∧
    (gum_thumb_writer_flush cbzForward126).1 = true ∧
    (gum_thumb_writer_flush cbzForward126).2.mem 0x1000 = 0xB3F8 ∧
    (gum_thumb_writer_flush cbzBackward).1 = false := by
  refine ⟨by decide, by decide, by decide, by decide, by decide, by decide⟩

/-- Claim C3 (code-bug evidence): `gum_thumb_writer_put_add_reg_imm` with a
non-SP destination performs no magnitude check: for r0 and immediate 256
(which does not fit in 8 bits) it returns true and emits halfword 0x3100 —
the immediate overflows into the register field, encoding `add r1, #0` —
instead of failing and emitting nothing; `put_sub_reg_imm` (add of the
negated immediate) likewise accepts 256 and emits 0x3900. -/
theorem gum_C3_add_reg_imm_overflow_not_rejected :
    (gum_thumb_writer_put_add_reg_imm (gum_thumb_writer_new 0x1000) 0
        256).1 = true ∧
    (gum_thumb_writer_put_add_reg_imm (gum_thumb_writer_new 0x1000) 0
        256).2.mem 0x1000 = 0x3100 ∧
    (gum_thumb_writer_put_add_reg_imm (gum_thumb_writer_new 0x1000) 0
        256).2.code = 0x1002 ∧
    (gum_thumb_writer_put_sub_reg_imm (gum_thumb_writer_new 0x1000) 0
        256).1 = true ∧
    (gum_thumb_writer_put_sub_reg_imm (gum_thumb_writer_new 0x1000) 0
        256).2.mem 0x1000 = 0x3900 := by
  refine ⟨by decide, by decide, by decide, by decide, by decide⟩

/-- Claim C10: the label table cannot distinguish a label defined at
address 0 from an undefined one — `lookupLabelAddress` returns 0 for both —
so after reset at address 0 the same label id can be defined twice (the
at-most-once invariant is violated) and a flush referencing it fails as
unresolved. -/
theorem gum_C10_label_at_address_zero :
    lookupLabelAddress [] 5 = 0 ∧
    lookupLabelAddress [⟨5, 0⟩] 5 = 0 ∧
    labelAtZeroOnce.1 = true ∧
    labelAtZeroOnce.2.id_to_address = [⟨5, 0⟩] ∧
    labelAtZeroTwice.1 = true ∧
    labelAtZeroTwice.2.id_to_address = [⟨5, 0⟩, ⟨5, 0⟩] ∧
    (gum_thumb_writer_flush labelAtZeroReferenced).1 = false := by
  refine ⟨by decide, by decide, by decide, by decide, by decide, by decide,
    by decide⟩

/-- The narrow-form conditions of claim C6 (spec §4.1.3): destination low,
base low or SP, offset a multiple of 4 and within 1020 (SP base) or 124
(low base). -/
def narrowTransferConditions (left_reg right_reg right_offset : Nat) : Prop :=
  left_reg ≤ 7 ∧ (right_reg ≤ 7 ∨ right_reg = 13) ∧
    right_offset % 4 = 0 ∧
    ((right_reg = 13 ∧ right_offset ≤ 1020) ∨
      (right_reg ≠ 13 ∧ right_offset ≤ 124))

instance (l r o : Nat) : Decidable (narrowTransferConditions l r o) := by
  unfold narrowTransferConditions
  infer_instance

lemma transfer_cond_iff (l r o : Nat) :
    ((gum_arm_reg_describe l).meta ≤ GUM_ARM_MREG_R7 ∧
      ((gum_arm_reg_describe r).meta ≤ GUM_ARM_MREG_R7 ∨
        (gum_arm_reg_describe r).meta = GUM_ARM_MREG_SP) ∧
      (((gum_arm_reg_describe r).meta = GUM_ARM_MREG_SP ∧ o ≤ 1020) ∨
        ((gum_arm_reg_describe r).meta ≠ GUM_ARM_MREG_SP ∧ o ≤ 124)) ∧
      o % 4 = 0) ↔ narrowTransferConditions l r o := by
  unfold narrowTransferConditions gum_arm_reg_describe GUM_ARM_MREG_R7
    GUM_ARM_MREG_SP
  tauto

/-- Claim C6: `gum_thumb_writer_put_ldr_reg_reg_offset` and
`gum_thumb_writer_put_str_reg_reg_offset` delegate to the shared transfer
routine; that routine emits the 16-bit narrow encoding (one halfword)
exactly when the narrow conditions hold, otherwise emits the 32-bit
encoding (two halfwords) when the offset is at most 4095, and returns
failure emitting nothing exactly when the narrow conditions fail and the
offset exceeds 4095. -/
theorem gum_C6_transfer_encoding_selection (self : GumThumbWriter)
    (operation : GumThumbMemoryOperation)
    (left_reg right_reg right_offset : Nat) :
    ((gum_thumb_writer_put_transfer_reg_reg_offset self operation left_reg
          right_reg right_offset).1 = true ↔
        (narrowTransferConditions left_reg right_reg right_offset ∨
          right_offset ≤ 4095)) ∧
    ((gum_thumb_writer_put_transfer_reg_reg_offset self operation left_reg
          right_reg right_offset).2.code =
        if narrowTransferConditions left_reg right_reg right_offset then
          self.code + 2
        else if right_offset ≤ 4095 then self.code + 4 else self.code) ∧
    (¬ narrowTransferConditions left_reg right_reg right_offset →
      right_offset > 4095 →
      gum_thumb_writer_put_transfer_reg_reg_offset self operation left_reg
        right_reg right_offset = (false, self)) ∧
    gum_thumb_writer_put_ldr_reg_reg_offset self left_reg right_reg
        right_offset =
      gum_thumb_writer_put_transfer_reg_reg_offset self
        GumThumbMemoryOperation.load left_reg right_reg right_offset ∧
    gum_thumb_writer_put_str_reg_reg_offset self left_reg right_reg
        right_offset =
      gum_thumb_writer_put_transfer_reg_reg_offset self
        GumThumbMemoryOperation.store left_reg right_reg right_offset := by
  refine ⟨?_, ?_, ?_, rfl, rfl⟩ <;>
    · unfold gum_thumb_writer_put_transfer_reg_reg_offset
      rw [if_congr (transfer_cond_iff left_reg right_reg right_offset) rfl rfl]
      by_cases hn : narrowTransferConditions left_reg right_reg right_offset <;>
        by_cases ho : 4095 < right_offset <;>
          simp [hn, ho, gum_thumb_writer_put_instruction, Nat.lt_irrefl] <;>
            first
              | omega
              | (split_ifs <;> omega)

/-- Witness for C6 at a concrete input: a high destination register with
offset 4096 fails the narrow conditions and exceeds 4095, so nothing is
emitted and the writer is unchanged. -/
theorem gum_C6_transfer_encoding_selection_witness :
    gum_thumb_writer_put_transfer_reg_reg_offset (gum_thumb_writer_new 0x1000)
      GumThumbMemoryOperation.load 8 0 4096 =
      (false, gum_thumb_writer_new 0x1000) :=
  (gum_C6_transfer_encoding_selection (gum_thumb_writer_new 0x1000)
    GumThumbMemoryOperation.load 8 0 4096).2.2.1 (by decide) (by decide)

lemma testBit_two_pow_iff (r i : Nat) : Nat.testBit (2 ^ r) i = true ↔ r = i := by
  by_cases h : r = i
  · subst h
    simp [Nat.testBit_two_pow_self]
  · simp [Nat.testBit_two_pow_of_ne h, h]

lemma testBit_foldl_or_contrib (f : GumArmRegInfo → Nat)
    (l : List GumArmRegInfo) (init i : Nat) :
    Nat.testBit (l.foldl (fun m ri => m ||| f ri) init) i =
      (Nat.testBit init i || l.any fun ri => Nat.testBit (f ri) i) := by
  induction l generalizing init with
  | nil => simp
  | cons a t ih => simp [ih, Nat.testBit_or, Bool.or_assoc]

lemma narrow_fold_eq (special : Nat) (l : List GumArmRegInfo) (init : Nat) :
    l.foldl
        (fun insn ri =>
          if ri.meta = special then insn ||| 0x0100
          else insn ||| (1 <<< ri.index)) init =
      l.foldl
        (fun insn ri =>
          insn ||| (if ri.meta = special then 0x0100 else 1 <<< ri.index))
        init := by
  have h : (fun insn (ri : GumArmRegInfo) =>
        if ri.meta = special then insn ||| 0x0100
        else insn ||| (1 <<< ri.index)) =
      fun insn ri =>
        insn ||| (if ri.meta = special then 0x0100 else 1 <<< ri.index) := by
    funext insn ri
    split <;> rfl
  rw [h]

/-- Behaviour of `gum_thumb_writer_put_push_or_pop_regs` on a non-empty
register set, for a special register above bit 8 and a narrow opcode whose
low 9 bits are clear (true of both 0xB400 and 0xBC00). -/
lemma put_push_or_pop_regs_spec (self : GumThumbWriter)
    (narrow_opcode wide_opcode special_reg : Nat) (regs : List Nat)
    (hne : regs ≠ [])
    (hsp : 8 < special_reg)
    (hlow : ∀ i, i ≤ 8 → Nat.testBit narrow_opcode i = false) :
    (gum_thumb_writer_put_push_or_pop_regs self narrow_opcode wide_opcode
        special_reg regs).1 = true ∧
    ((∀ r ∈ regs, r ≤ 7 ∨ r = special_reg) →
      (gum_thumb_writer_put_push_or_pop_regs self narrow_opcode wide_opcode
          special_reg regs).2.code = self.code + 2 ∧
      (∀ i, i ≤ 7 →
        (Nat.testBit
            ((gum_thumb_writer_put_push_or_pop_regs self narrow_opcode
              wide_opcode special_reg regs).2.mem self.code) i = true ↔
          i ∈ regs)) ∧
      (Nat.testBit
          ((gum_thumb_writer_put_push_or_pop_regs self narrow_opcode
            wide_opcode special_reg regs).2.mem self.code) 8 = true ↔
        special_reg ∈ regs)) ∧
    ((¬ ∀ r ∈ regs, r ≤ 7 ∨ r = special_reg) →
      (gum_thumb_writer_put_push_or_pop_regs self narrow_opcode wide_opcode
          special_reg regs).2.code = self.code + 4 ∧
      (gum_thumb_writer_put_push_or_pop_regs self narrow_opcode wide_opcode
          special_reg regs).2.mem self.code = wide_opcode % 65536 ∧
      (∀ i, i ≤ 15 →
        (Nat.testBit
            ((gum_thumb_writer_put_push_or_pop_regs self narrow_opcode
              wide_opcode special_reg regs).2.mem (self.code + 2)) i = true ↔
          i ∈ regs))) := by
  have hlen : regs.length ≠ 0 := fun h => hne (List.length_eq_zero.mp h)
  have hany_iff :
      ((regs.map gum_arm_reg_describe).any fun ri =>
          ¬ (GUM_ARM_MREG_R0 ≤ ri.meta ∧ ri.meta ≤ GUM_ARM_MREG_R7) ∧
            ri.meta ≠ special_reg) = true ↔
        ¬ ∀ r ∈ regs, r ≤ 7 ∨ r = special_reg := by
    constructor
    · intro hany hall
      rcases List.any_eq_true.mp hany with ⟨ri, hri, hcond⟩
      rcases List.mem_map.mp hri with ⟨r, hr, rfl⟩
      simp only [gum_arm_reg_describe, decide_eq_true_eq, GUM_ARM_MREG_R0,
        GUM_ARM_MREG_R7] at hcond
      rcases hall r hr with h | h
      · exact hcond.1 ⟨Nat.zero_le r, h⟩
      · exact hcond.2 h
    · intro hnall
      push_neg at hnall
      obtain ⟨r, hr, h7, hs⟩ := hnall
      refine List.any_eq_true.mpr
        ⟨gum_arm_reg_describe r, List.mem_map.mpr ⟨r, hr, rfl⟩, ?_⟩
      simp only [gum_arm_reg_describe, decide_eq_true_eq, GUM_ARM_MREG_R0,
        GUM_ARM_MREG_R7]
      exact ⟨fun hc => absurd hc.2 (by omega), hs⟩
  by_cases hall : ∀ r ∈ regs, r ≤ 7 ∨ r = special_reg
  · have hres : gum_thumb_writer_put_push_or_pop_regs self narrow_opcode
        wide_opcode special_reg regs =
        (true, gum_thumb_writer_put_instruction self
          ((regs.map gum_arm_reg_describe).foldl
            (fun insn ri =>
              if ri.meta = special_reg then insn ||| 0x0100
              else insn ||| (1 <<< ri.index))
            narrow_opcode)) := by
      unfold gum_thumb_writer_put_push_or_pop_regs
      rw [if_neg hlen, if_neg (by rw [hany_iff]; exact fun h => h hall)]
    have hmem : (gum_thumb_writer_put_push_or_pop_regs self narrow_opcode
        wide_opcode special_reg regs).2.mem self.code =
        ((regs.map gum_arm_reg_describe).foldl
          (fun insn ri =>
            if ri.meta = special_reg then insn ||| 0x0100
            else insn ||| (1 <<< ri.index))
          narrow_opcode) % 65536 := by
      rw [hres]
      simp [gum_thumb_writer_put_instruction, memWrite]
    have hbit : ∀ i, i ≤ 8 →
        (Nat.testBit ((gum_thumb_writer_put_push_or_pop_regs self
            narrow_opcode wide_opcode special_reg regs).2.mem self.code) i =
          ((regs.map gum_arm_reg_describe).any fun ri =>
            Nat.testBit
              (if ri.meta = special_reg then 0x0100 else 1 <<< ri.index) i)) := by
      intro i hi
      rw [hmem, show (65536 : Nat) = 2 ^ 16 by norm_num,
        Nat.testBit_mod_two_pow, narrow_fold_eq, testBit_foldl_or_contrib,
        hlow i hi]
      have h16lt : i < 16 := by omega
      simp [h16lt]
    refine ⟨by rw [hres], fun _ => ⟨?_, ?_, ?_⟩, fun hc => absurd hall hc⟩
    · rw [hres]
      rfl
    · intro i hi
      rw [hbit i (by omega), List.any_eq_true]
      constructor
      · rintro ⟨ri, hri, hcond⟩
        rcases List.mem_map.mp hri with ⟨r, hr, rfl⟩
        simp only [gum_arm_reg_describe] at hcond
        by_cases hspr : r = special_reg
        · rw [if_pos hspr,
            show (0x0100 : Nat) = 2 ^ 8 by norm_num, testBit_two_pow_iff]
            at hcond
          omega
        · rw [if_neg hspr, Nat.one_shiftLeft, testBit_two_pow_iff] at hcond
          rwa [← hcond]
      · intro hmemb
        refine ⟨gum_arm_reg_describe i, List.mem_map.mpr ⟨i, hmemb, rfl⟩, ?_⟩
        simp only [gum_arm_reg_describe]
        rw [if_neg (by omega : ¬ i = special_reg), Nat.one_shiftLeft]
        exact (testBit_two_pow_iff i i).mpr rfl
    · rw [hbit 8 (by omega), List.any_eq_true]
      constructor
      · rintro ⟨ri, hri, hcond⟩
        rcases List.mem_map.mp hri with ⟨r, hr, rfl⟩
        simp only [gum_arm_reg_describe] at hcond
        by_cases hspr : r = special_reg
        · rwa [← hspr]
        · rcases hall r hr with h7 | h7
          · rw [if_neg hspr, Nat.one_shiftLeft, testBit_two_pow_iff] at hcond
            omega
          · exact absurd h7 hspr
      · intro hmemb
        refine ⟨gum_arm_reg_describe special_reg,
          List.mem_map.mpr ⟨special_reg, hmemb, rfl⟩, ?_⟩
        simp only [gum_arm_reg_describe, eq_self_iff_true, if_true]
        rw [show (0x0100 : Nat) = 2 ^ 8 by norm_num]
        exact (testBit_two_pow_iff 8 8).mpr rfl
  · have hres : gum_thumb_writer_put_push_or_pop_regs self narrow_opcode
        wide_opcode special_reg regs =
        (true, gum_thumb_writer_put_instruction
          (gum_thumb_writer_put_instruction self wide_opcode)
          ((regs.map gum_arm_reg_describe).foldl
            (fun mask ri => mask ||| (1 <<< ri.index)) 0)) := by
      unfold gum_thumb_writer_put_push_or_pop_regs
      rw [if_neg hlen, if_pos (hany_iff.mpr hall)]
    refine ⟨by rw [hres], fun hc => absurd hc hall, fun _ => ⟨?_, ?_, ?_⟩⟩
    · rw [hres]
      simp [gum_thumb_writer_put_instruction]
    · rw [hres]
      simp [gum_thumb_writer_put_instruction, memWrite]
    · intro i hi
      have hmem : (gum_thumb_writer_put_push_or_pop_regs self narrow_opcode
          wide_opcode special_reg regs).2.mem (self.code + 2) =
          ((regs.map gum_arm_reg_describe).foldl
            (fun mask ri => mask ||| (1 <<< ri.index)) 0) % 65536 := by
        rw [hres]
        simp [gum_thumb_writer_put_instruction, memWrite]
      rw [hmem, show (65536 : Nat) = 2 ^ 16 by norm_num,
        Nat.testBit_mod_two_pow, testBit_foldl_or_contrib, Nat.zero_testBit]
      simp only [Bool.false_or, decide_eq_true_eq, Bool.and_eq_true,
        List.any_eq_true]
      constructor
      · rintro ⟨-, ri, hri, hcond⟩
        rcases List.mem_map.mp hri with ⟨r, hr, rfl⟩
        simp only [gum_arm_reg_describe] at hcond
        rw [Nat.one_shiftLeft, testBit_two_pow_iff] at hcond
        rwa [← hcond]
      · intro hmemb
        refine ⟨by omega, gum_arm_reg_describe i,
          List.mem_map.mpr ⟨i, hmemb, rfl⟩, ?_⟩
        simp only [gum_arm_reg_describe]
        rw [Nat.one_shiftLeft]
        exact (testBit_two_pow_iff i i).mpr rfl

/-- Claim C7: for a non-empty register set, `put_push_regs_array` (special
register LR = 14) and `put_pop_regs_array` (special register PC = 15) emit
the 16-bit narrow encoding — one mask bit per low register and bit 8 for
the special register — if and only if every register is low or the special
register; otherwise they emit the wide base opcode followed by a 16-bit
mask with one bit per register index.  An empty set fails and emits
nothing. -/
theorem gum_C7_push_pop_regs_encoding (self : GumThumbWriter)
    (regs : List Nat) :
    gum_thumb_writer_put_push_regs_array self [] = (false, self) ∧
    gum_thumb_writer_put_pop_regs_array self [] = (false, self) ∧
    (regs ≠ [] →
      ((gum_thumb_writer_put_push_regs_array self regs).1 = true ∧
        ((∀ r ∈ regs, r ≤ 7 ∨ r = 14) →
          (gum_thumb_writer_put_push_regs_array self regs).2.code =
            self.code + 2 ∧
          (∀ i, i ≤ 7 →
            (Nat.testBit ((gum_thumb_writer_put_push_regs_array self
                regs).2.mem self.code) i = true ↔ i ∈ regs)) ∧
          (Nat.testBit ((gum_thumb_writer_put_push_regs_array self
              regs).2.mem self.code) 8 = true ↔ (14 : Nat) ∈ regs)) ∧
        ((¬ ∀ r ∈ regs, r ≤ 7 ∨ r = 14) →
          (gum_thumb_writer_put_push_regs_array self regs).2.code =
            self.code + 4 ∧
          (gum_thumb_writer_put_push_regs_array self regs).2.mem self.code =
            0xE92D ∧
          (∀ i, i ≤ 15 →
            (Nat.testBit ((gum_thumb_writer_put_push_regs_array self
                regs).2.mem (self.code + 2)) i = true ↔ i ∈ regs)))) ∧
      ((gum_thumb_writer_put_pop_regs_array self regs).1 = true ∧
        ((∀ r ∈ regs, r ≤ 7 ∨ r = 15) →
          (gum_thumb_writer_put_pop_regs_array self regs).2.code =
            self.code + 2 ∧
          (∀ i, i ≤ 7 →
            (Nat.testBit ((gum_thumb_writer_put_pop_regs_array self
                regs).2.mem self.code) i = true ↔ i ∈ regs)) ∧
          (Nat.testBit ((gum_thumb_writer_put_pop_regs_array self
              regs).2.mem self.code) 8 = true ↔ (15 : Nat) ∈ regs)) ∧
        ((¬ ∀ r ∈ regs, r ≤ 7 ∨ r = 15) →
          (gum_thumb_writer_put_pop_regs_array self regs).2.code =
            self.code + 4 ∧
          (gum_thumb_writer_put_pop_regs_array self regs).2.mem self.code =
            0xE8BD ∧
          (∀ i, i ≤ 15 →
            (Nat.testBit ((gum_thumb_writer_put_pop_regs_array self
                regs).2.mem (self.code + 2)) i = true ↔ i ∈ regs))))) := by
  refine ⟨rfl, rfl, fun hne => ⟨?_, ?_⟩⟩
  · have h := put_push_or_pop_regs_spec self 0xB400 0xE92D GUM_ARM_MREG_LR
      regs hne (by norm_num [GUM_ARM_MREG_LR])
      (fun i hi => by interval_cases i <;> decide)
    simpa [gum_thumb_writer_put_push_regs_array, GUM_ARM_MREG_LR] using h
  · have h := put_push_or_pop_regs_spec self 0xBC00 0xE8BD GUM_ARM_MREG_PC
      regs hne (by norm_num [GUM_ARM_MREG_PC])
      (fun i hi => by interval_cases i <;> decide)
    simpa [gum_thumb_writer_put_pop_regs_array, GUM_ARM_MREG_PC] using h

/-- Witness for C7 at a concrete mixed register set: `push {r0, r8}` takes
the wide encoding and advances the cursor by 4 bytes. -/
theorem gum_C7_push_pop_regs_encoding_witness :
    (gum_thumb_writer_put_push_regs_array (gum_thumb_writer_new 0x1000)
        [0, 8]).1 = true ∧
    (gum_thumb_writer_put_push_regs_array (gum_thumb_writer_new 0x1000)
        [0, 8]).2.code = 0x1004 := by
  have h := (gum_C7_push_pop_regs_encoding (gum_thumb_writer_new 0x1000)
    [0, 8]).2.2 (by decide)
  have h2 := h.1.2.2 (by decide)
  exact ⟨h.1.1, h2.1.trans (by decide)⟩

/-- One public writer operation (the single-mnemonic emitters, the raw
emitters, label definition and flush), for quantifying over sequences of
operations. -/
inductive GumThumbOp where
  | op_instruction (insn : Nat)
  | op_skip (n : Nat)
  | op_bytes (data : List Nat)
  | op_b_imm (target : Nat)
  | op_bl_imm (target : Nat)
  | op_blx_imm (target : Nat)
  | op_bx_reg (reg : Nat)
  | op_blx_reg (reg : Nat)
  | op_cmp_reg_imm (reg imm : Nat)
  | op_b_label (id : Nat)
  | op_b_cond_label (cc id : Nat)
  | op_beq_label (id : Nat)
  | op_bne_label (id : Nat)
  | op_cbz_reg_label (reg id : Nat)
  | op_cbnz_reg_label (reg id : Nat)
  | op_push_regs_array (regs : List Nat)
  | op_pop_regs_array (regs : List Nat)
  | op_ldr_reg_address (reg address : Nat)
  | op_ldr_reg_u32 (reg val : Nat)
  | op_ldr_reg_reg (dst src : Nat)
  | op_ldr_reg_reg_offset (dst src off : Nat)
  | op_str_reg_reg (src dst : Nat)
  | op_str_reg_reg_offset (src dst off : Nat)
  | op_mov_reg_reg (dst src : Nat)
  | op_mov_reg_u8 (dst imm : Nat)
  | op_add_reg_imm (dst : Nat) (imm : Int)
  | op_add_reg_reg (dst src : Nat)
  | op_add_reg_reg_reg (dst left right : Nat)
  | op_add_reg_reg_imm (dst left : Nat) (imm : Int)
  | op_sub_reg_imm (dst : Nat) (imm : Int)
  | op_sub_reg_reg (dst src : Nat)
  | op_sub_reg_reg_reg (dst left right : Nat)
  | op_sub_reg_reg_imm (dst left : Nat) (imm : Int)
  | op_nop
  | op_bkpt_imm (imm : Nat)
  | op_breakpoint
  | op_put_label (id : Nat)
  | op_set_target_os (os : Nat)
  | op_flush

/-- Apply one operation to the writer (dropping success flags). -/
def gum_thumb_step (op : GumThumbOp) (w : GumThumbWriter) : GumThumbWriter :=
  match op with
  | .op_instruction insn => gum_thumb_writer_put_instruction w insn
  | .op_skip n => gum_thumb_writer_skip w n
  | .op_bytes data => (gum_thumb_writer_put_bytes w data).2
  | .op_b_imm target => gum_thumb_writer_put_b_imm w target
  | .op_bl_imm target => gum_thumb_writer_put_bl_imm w target
  | .op_blx_imm target => gum_thumb_writer_put_blx_imm w target
  | .op_bx_reg reg => gum_thumb_writer_put_bx_reg w reg
  | .op_blx_reg reg => gum_thumb_writer_put_blx_reg w reg
  | .op_cmp_reg_imm reg imm => gum_thumb_writer_put_cmp_reg_imm w reg imm
  | .op_b_label id => (gum_thumb_writer_put_b_label w id).2
  | .op_b_cond_label cc id => (gum_thumb_writer_put_b_cond_label w cc id).2
  | .op_beq_label id => (gum_thumb_writer_put_beq_label w id).2
  | .op_bne_label id => (gum_thumb_writer_put_bne_label w id).2
  | .op_cbz_reg_label reg id => (gum_thumb_writer_put_cbz_reg_label w reg id).2
  | .op_cbnz_reg_label reg id =>
      (gum_thumb_writer_put_cbnz_reg_label w reg id).2
  | .op_push_regs_array regs => (gum_thumb_writer_put_push_regs_array w regs).2
  | .op_pop_regs_array regs => (gum_thumb_writer_put_pop_regs_array w regs).2
  | .op_ldr_reg_address reg address =>
      (gum_thumb_writer_put_ldr_reg_address w reg address).2
  | .op_ldr_reg_u32 reg val => (gum_thumb_writer_put_ldr_reg_u32 w reg val).2
  | .op_ldr_reg_reg dst src => (gum_thumb_writer_put_ldr_reg_reg w dst src).2
  | .op_ldr_reg_reg_offset dst src off =>
      (gum_thumb_writer_put_ldr_reg_reg_offset w dst src off).2
  | .op_str_reg_reg src dst => (gum_thumb_writer_put_str_reg_reg w src dst).2
  | .op_str_reg_reg_offset src dst off =>
      (gum_thumb_writer_put_str_reg_reg_offset w src dst off).2
  | .op_mov_reg_reg dst src => gum_thumb_writer_put_mov_reg_reg w dst src
  | .op_mov_reg_u8 dst imm => gum_thumb_writer_put_mov_reg_u8 w dst imm
  | .op_add_reg_imm dst imm => (gum_thumb_writer_put_add_reg_imm w dst imm).2
  | .op_add_reg_reg dst src => gum_thumb_writer_put_add_reg_reg w dst src
  | .op_add_reg_reg_reg dst left right =>
      gum_thumb_writer_put_add_reg_reg_reg w dst left right
  | .op_add_reg_reg_imm dst left imm =>
      (gum_thumb_writer_put_add_reg_reg_imm w dst left imm).2
  | .op_sub_reg_imm dst imm => (gum_thumb_writer_put_sub_reg_imm w dst imm).2
  | .op_sub_reg_reg dst src => gum_thumb_writer_put_sub_reg_reg w dst src
  | .op_sub_reg_reg_reg dst left right =>
      gum_thumb_writer_put_sub_reg_reg_reg w dst left right
  | .op_sub_reg_reg_imm dst left imm =>
      (gum_thumb_writer_put_sub_reg_reg_imm w dst left imm).2
  | .op_nop => gum_thumb_writer_put_nop w
  | .op_bkpt_imm imm => gum_thumb_writer_put_bkpt_imm w imm
  | .op_breakpoint => gum_thumb_writer_put_breakpoint w
  | .op_put_label id => (gum_thumb_writer_put_label w id).2
  | .op_set_target_os os => gum_thumb_writer_set_target_os w os
  | .op_flush => (gum_thumb_writer_flush w).2

/-- Run a sequence of operations. -/
def gum_thumb_run (ops : List GumThumbOp) (w : GumThumbWriter) :
    GumThumbWriter :=
  ops.foldl (fun w op => gum_thumb_step op w) w

/-- `w2` is reachable from `w` by advancing `code`, `pc` and the ghost byte
counter by the same amount, leaving `base` untouched. -/
def Advances (w w2 : GumThumbWriter) : Prop :=
  w2.base = w.base ∧
    ∃ d, w2.code = w.code + d ∧ w2.pc = w.pc + d ∧ w2.emitted = w.emitted + d

lemma advances_refl (w : GumThumbWriter) : Advances w w :=
  ⟨rfl, 0, by simp⟩

lemma advances_trans {w1 w2 w3 : GumThumbWriter} (h1 : Advances w1 w2)
    (h2 : Advances w2 w3) : Advances w1 w3 := by
  obtain ⟨hb, d1, hc, hp, he⟩ := h1
  obtain ⟨hb2, d2, hc2, hp2, he2⟩ := h2
  exact ⟨hb2.trans hb, d1 + d2, by omega, by omega, by omega⟩

lemma advances_put (w : GumThumbWriter) (insn : Nat) :
    Advances w (gum_thumb_writer_put_instruction w insn) :=
  ⟨rfl, 2, rfl, rfl, rfl⟩

lemma advances_skip (w : GumThumbWriter) (n : Nat) :
    Advances w (gum_thumb_writer_skip w n) :=
  ⟨rfl, n, rfl, rfl, rfl⟩

lemma advances_branch_imm (w : GumThumbWriter) (target : Nat)
    (link thumb : Bool) :
    Advances w (gum_thumb_writer_put_branch_imm w target link thumb) :=
  advances_trans (advances_put w _) (advances_put _ _)

lemma advances_add_label_reference (w : GumThumbWriter) (id : Nat) :
    Advances w (gum_thumb_writer_add_label_reference_here w id).2 := by
  unfold gum_thumb_writer_add_label_reference_here
  split
  · exact advances_refl w
  · exact ⟨rfl, 0, by simp⟩

lemma advances_add_literal_reference (w : GumThumbWriter) (val : Nat) :
    Advances w (gum_thumb_writer_add_literal_reference_here w val).2 := by
  unfold gum_thumb_writer_add_literal_reference_here
  split
  · exact advances_refl w
  · exact ⟨rfl, 0, by simp⟩

lemma advances_b_label (w : GumThumbWriter) (id : Nat) :
    Advances w (gum_thumb_writer_put_b_label w id).2 := by
  unfold gum_thumb_writer_put_b_label
  have h := advances_add_label_reference w id
  rcases hr : gum_thumb_writer_add_label_reference_here w id with ⟨b, w2⟩
  rw [hr] at h
  cases b
  · exact h
  · exact advances_trans h (advances_put _ _)

lemma advances_b_cond_label (w : GumThumbWriter) (cc id : Nat) :
    Advances w (gum_thumb_writer_put_b_cond_label w cc id).2 := by
  unfold gum_thumb_writer_put_b_cond_label
  have h := advances_add_label_reference w id
  rcases hr : gum_thumb_writer_add_label_reference_here w id with ⟨b, w2⟩
  rw [hr] at h
  cases b
  · exact h
  · exact advances_trans h (advances_put _ _)

lemma advances_cbz (w : GumThumbWriter) (reg id : Nat) :
    Advances w (gum_thumb_writer_put_cbz_reg_label w reg id).2 := by
  unfold gum_thumb_writer_put_cbz_reg_label
  have h := advances_add_label_reference w id
  rcases hr : gum_thumb_writer_add_label_reference_here w id with ⟨b, w2⟩
  rw [hr] at h
  cases b
  · exact h
  · exact advances_trans h (advances_put _ _)

lemma advances_cbnz (w : GumThumbWriter) (reg id : Nat) :
    Advances w (gum_thumb_writer_put_cbnz_reg_label w reg id).2 := by
  unfold gum_thumb_writer_put_cbnz_reg_label
  have h := advances_add_label_reference w id
  rcases hr : gum_thumb_writer_add_label_reference_here w id with ⟨b, w2⟩
  rw [hr] at h
  cases b
  · exact h
  · exact advances_trans h (advances_put _ _)

lemma advances_push_or_pop (w : GumThumbWriter) (a b c : Nat)
    (regs : List Nat) :
    Advances w (gum_thumb_writer_put_push_or_pop_regs w a b c regs).2 := by
  unfold gum_thumb_writer_put_push_or_pop_regs
  dsimp only
  split
  · exact advances_refl w
  · split
    · exact advances_trans (advances_put _ _) (advances_put _ _)
    · exact advances_put _ _

lemma advances_ldr_u32 (w : GumThumbWriter) (reg val : Nat) :
    Advances w (gum_thumb_writer_put_ldr_reg_u32 w reg val).2 := by
  unfold gum_thumb_writer_put_ldr_reg_u32
  have h := advances_add_literal_reference w val
  rcases hr : gum_thumb_writer_add_literal_reference_here w val with ⟨b, w2⟩
  rw [hr] at h
  cases b
  · exact h
  · dsimp only
    split
    · exact advances_trans h (advances_put _ _)
    · exact advances_trans h
        (advances_trans (advances_put _ _) (advances_put _ _))

lemma advances_transfer (w : GumThumbWriter) (op : GumThumbMemoryOperation)
    (l r off : Nat) :
    Advances w (gum_thumb_writer_put_transfer_reg_reg_offset w op l r off).2 := by
  unfold gum_thumb_writer_put_transfer_reg_reg_offset
  dsimp only
  split
  · exact advances_put _ _
  · split
    · exact advances_refl w
    · exact advances_trans (advances_put _ _) (advances_put _ _)

lemma advances_add_reg_imm (w : GumThumbWriter) (dst : Nat) (imm : Int) :
    Advances w (gum_thumb_writer_put_add_reg_imm w dst imm).2 := by
  unfold gum_thumb_writer_put_add_reg_imm
  dsimp only
  split
  · split
    · exact advances_refl w
    · exact advances_put _ _
  · exact advances_put _ _

lemma advances_add_reg_reg_imm (w : GumThumbWriter) (dst left : Nat)
    (imm : Int) :
    Advances w (gum_thumb_writer_put_add_reg_reg_imm w dst left imm).2 := by
  unfold gum_thumb_writer_put_add_reg_reg_imm
  dsimp only
  split
  · exact advances_add_reg_imm w dst imm
  · split
    · split
      · exact advances_refl w
      · exact advances_put _ _
    · split
      · exact advances_refl w
      · exact advances_put _ _

lemma advances_put_label (w : GumThumbWriter) (id : Nat) :
    Advances w (gum_thumb_writer_put_label w id).2 := by
  unfold gum_thumb_writer_put_label gum_thumb_writer_add_address_for_label_id
  split
  · exact advances_refl w
  · split
    · exact advances_refl w
    · exact ⟨rfl, 0, by simp⟩

lemma advances_bytes (w : GumThumbWriter) (data : List Nat) :
    Advances w (gum_thumb_writer_put_bytes w data).2 := by
  unfold gum_thumb_writer_put_bytes
  split
  · exact advances_refl w
  · exact ⟨rfl, data.length, rfl, rfl, rfl⟩

lemma processLiteralRef_advance (first : Nat) (r : GumThumbLiteralRef)
    (st : LitFlushState) :
    ∃ d, (processLiteralRef first r st).1.code = st.code + d ∧
      (processLiteralRef first r st).1.pc = st.pc + d ∧
      (processLiteralRef first r st).1.emitted = st.emitted + d := by
  unfold processLiteralRef
  dsimp only
  split <;> split
  · exact ⟨4, by simp⟩
  · exact ⟨0, by simp⟩
  · exact ⟨4, by simp⟩
  · exact ⟨0, by simp⟩

lemma processLiteralRefs_advance (first : Nat)
    (refs : List GumThumbLiteralRef) (st : LitFlushState) :
    ∃ d, (processLiteralRefs first refs st).1.code = st.code + d ∧
      (processLiteralRefs first refs st).1.pc = st.pc + d ∧
      (processLiteralRefs first refs st).1.emitted = st.emitted + d := by
  induction refs generalizing st with
  | nil => exact ⟨0, by simp [processLiteralRefs]⟩
  | cons r rest ih =>
    obtain ⟨d1, hc1, hp1, he1⟩ := processLiteralRef_advance first r st
    obtain ⟨d2, hc2, hp2, he2⟩ := ih (processLiteralRef first r st).1
    refine ⟨d1 + d2, ?_, ?_, ?_⟩ <;>
      · simp only [processLiteralRefs]
        omega

lemma advances_flushPool (w : GumThumbWriter) :
    Advances w (flushPool w).w := by
  unfold flushPool
  dsimp only
  split
  · obtain ⟨d, hc, hp, he⟩ := processLiteralRefs_advance
      (gum_thumb_writer_put_nop w).code w.literal_refs
      ⟨(gum_thumb_writer_put_nop w).mem, (gum_thumb_writer_put_nop w).code,
        (gum_thumb_writer_put_nop w).pc, (gum_thumb_writer_put_nop w).emitted,
        (gum_thumb_writer_put_nop w).code⟩
    refine ⟨by simp [gum_thumb_writer_put_nop,
      gum_thumb_writer_put_instruction], 2 + d, ?_, ?_, ?_⟩ <;>
      · simp only [gum_thumb_writer_put_nop,
          gum_thumb_writer_put_instruction] at hc hp he ⊢
        omega
  · obtain ⟨d, hc, hp, he⟩ := processLiteralRefs_advance w.code w.literal_refs
      ⟨w.mem, w.code, w.pc, w.emitted, w.code⟩
    exact ⟨rfl, d, hc, hp, he⟩

lemma advances_flush (w : GumThumbWriter) :
    Advances w (gum_thumb_writer_flush w).2 := by
  unfold gum_thumb_writer_flush gum_thumb_writer_flush_trace
  dsimp only
  split
  · exact ⟨rfl, 0, by simp⟩
  · split
    · exact advances_trans
        (show Advances w
            { w with
              mem := (processLabelRefs w.id_to_address w.mem w.label_refs).2
              label_refs := ([] : List GumThumbLabelRef) }
          from ⟨rfl, 0, by simp⟩)
        (advances_flushPool _)
    · exact ⟨rfl, 0, by simp⟩

lemma advances_step (op : GumThumbOp) (w : GumThumbWriter) :
    Advances w (gum_thumb_step op w) := by
  cases op with
  | op_instruction insn => exact advances_put w insn
  | op_skip n => exact advances_skip w n
  | op_bytes data => exact advances_bytes w data
  | op_b_imm t => exact advances_branch_imm w t false true
  | op_bl_imm t => exact advances_branch_imm w t true true
  | op_blx_imm t => exact advances_branch_imm w t true false
  | op_bx_reg r => exact advances_put w _
  | op_blx_reg r => exact advances_put w _
  | op_cmp_reg_imm r i => exact advances_put w _
  | op_b_label id => exact advances_b_label w id
  | op_b_cond_label cc id => exact advances_b_cond_label w cc id
  | op_beq_label id => exact advances_b_cond_label w ARM_CC_EQ id
  | op_bne_label id => exact advances_b_cond_label w ARM_CC_NE id
  | op_cbz_reg_label r id => exact advances_cbz w r id
  | op_cbnz_reg_label r id => exact advances_cbnz w r id
  | op_push_regs_array regs => exact advances_push_or_pop w _ _ _ regs
  | op_pop_regs_array regs => exact advances_push_or_pop w _ _ _ regs
  | op_ldr_reg_address r a => exact advances_ldr_u32 w r _
  | op_ldr_reg_u32 r v => exact advances_ldr_u32 w r v
  | op_ldr_reg_reg d s => exact advances_transfer w _ d s 0
  | op_ldr_reg_reg_offset d s o => exact advances_transfer w _ d s o
  | op_str_reg_reg s d => exact advances_transfer w _ s d 0
  | op_str_reg_reg_offset s d o => exact advances_transfer w _ s d o
  | op_mov_reg_reg d s => exact advances_put w _
  | op_mov_reg_u8 d i => exact advances_put w _
  | op_add_reg_imm d i => exact advances_add_reg_imm w d i
  | op_add_reg_reg d s => exact advances_put w _
  | op_add_reg_reg_reg d l r => exact advances_put w _
  | op_add_reg_reg_imm d l i => exact advances_add_reg_reg_imm w d l i
  | op_sub_reg_imm d i => exact advances_add_reg_imm w d _
  | op_sub_reg_reg d s => exact advances_put w _
  | op_sub_reg_reg_reg d l r => exact advances_put w _
  | op_sub_reg_reg_imm d l i => exact advances_add_reg_reg_imm w d l _
  | op_nop => exact advances_put w _
  | op_bkpt_imm i => exact advances_put w _
  | op_breakpoint =>
      show Advances w (gum_thumb_writer_put_breakpoint w)
      unfold gum_thumb_writer_put_breakpoint
      split
      · exact advances_put w _
      · exact advances_trans (advances_put w _) (advances_put _ _)
  | op_put_label id => exact advances_put_label w id
  | op_set_target_os os =>
      exact ⟨rfl, 0, by
        simp [gum_thumb_step, gum_thumb_writer_set_target_os]⟩
  | op_flush => exact advances_flush w

/-- Claim C9: after `reset(address)`, the cursor and pc advance in
lockstep over any sequence of operations: `code = base + emitted bytes`,
`pc = address + emitted bytes`, and hence `pc − address = code − base`. -/
theorem gum_C9_code_pc_lockstep (w0 : GumThumbWriter) (address : Nat)
    (ops : List GumThumbOp) :
    (gum_thumb_run ops (gum_thumb_writer_reset w0 address)).base = address ∧
    (gum_thumb_run ops (gum_thumb_writer_reset w0 address)).code =
      address + (gum_thumb_run ops (gum_thumb_writer_reset w0 address)).emitted ∧
    (gum_thumb_run ops (gum_thumb_writer_reset w0 address)).pc =
      address + (gum_thumb_run ops (gum_thumb_writer_reset w0 address)).emitted ∧
    (gum_thumb_run ops (gum_thumb_writer_reset w0 address)).pc - address =
      (gum_thumb_run ops (gum_thumb_writer_reset w0 address)).code -
        (gum_thumb_run ops (gum_thumb_writer_reset w0 address)).base := by
  suffices h : ∀ (w : GumThumbWriter),
      w.base = address → w.code = address + w.emitted →
      w.pc = address + w.emitted →
      (gum_thumb_run ops w).base = address ∧
        (gum_thumb_run ops w).code = address + (gum_thumb_run ops w).emitted ∧
        (gum_thumb_run ops w).pc = address + (gum_thumb_run ops w).emitted by
    obtain ⟨h1, h2, h3⟩ := h (gum_thumb_writer_reset w0 address) rfl
      (by simp [gum_thumb_writer_reset]) (by simp [gum_thumb_writer_reset])
    exact ⟨h1, h2, h3, by omega⟩
  induction ops with
  | nil => intro w hb hc hp; exact ⟨hb, hc, hp⟩
  | cons op rest ih =>
    intro w hb hc hp
    obtain ⟨hab, d, hac, hap, hae⟩ := advances_step op w
    exact ih (gum_thumb_step op w) (by omega) (by omega) (by omega)

lemma lookupLabelAddress_eq_zero {labels : List GumThumbLabelMapping}
    {id : Nat} (h : ∀ m ∈ labels, m.id ≠ id) :
    lookupLabelAddress labels id = 0 := by
  induction labels with
  | nil => rfl
  | cons m rest ih =>
    simp only [lookupLabelAddress]
    rw [if_neg (h m (by simp))]
    exact ih fun m2 hm2 => h m2 (by simp [hm2])

lemma processLabelRefs_fails {labels : List GumThumbLabelMapping}
    {refs : List GumThumbLabelRef}
    (h : ∃ r ∈ refs, lookupLabelAddress labels r.id = 0) :
    ∀ mem, (processLabelRefs labels mem refs).1 = false := by
  induction refs with
  | nil => simp at h
  | cons r rest ih =>
    intro mem
    obtain ⟨r0, hr0, hl⟩ := h
    simp only [processLabelRefs]
    rcases List.mem_cons.mp hr0 with heq | hr0
    · rw [if_pos (heq ▸ hl)]
    · by_cases hh : lookupLabelAddress labels r.id = 0
      · rw [if_pos hh]
      · rw [if_neg hh]
        split
        · split
          · rfl
          · exact ih ⟨r0, hr0, hl⟩ _
        · split
          · split
            · rfl
            · exact ih ⟨r0, hr0, hl⟩ _
          · split
            · rfl
            · exact ih ⟨r0, hr0, hl⟩ _

lemma processLabelRefs_mem_bound (labels : List GumThumbLabelMapping)
    (refs : List GumThumbLabelRef) :
    ∀ mem : Nat → Nat, ∃ k, k ≤ refs.length ∧
      ∀ a, a ∉ (refs.take k).map GumThumbLabelRef.insn →
        (processLabelRefs labels mem refs).2 a = mem a := by
  induction refs with
  | nil => exact fun mem => ⟨0, by simp, fun a _ => rfl⟩
  | cons r rest ih =>
    intro mem
    simp only [processLabelRefs]
    by_cases h0 : lookupLabelAddress labels r.id = 0
    · rw [if_pos h0]
      exact ⟨0, by simp, fun a _ => rfl⟩
    · rw [if_neg h0]
      split
      · split
        · exact ⟨0, by simp, fun a _ => rfl⟩
        · obtain ⟨k, hk, hmem⟩ := ih (memWrite mem r.insn _)
          refine ⟨k + 1, by simp; omega, fun a ha => ?_⟩
          simp only [List.take, List.map_cons, List.mem_cons, not_or] at ha
          rw [hmem a ha.2, memWrite, if_neg ha.1]
      · split
        · split
          · exact ⟨0, by simp, fun a _ => rfl⟩
          · obtain ⟨k, hk, hmem⟩ := ih (memWrite mem r.insn _)
            refine ⟨k + 1, by simp; omega, fun a ha => ?_⟩
            simp only [List.take, List.map_cons, List.mem_cons, not_or] at ha
            rw [hmem a ha.2, memWrite, if_neg ha.1]
        · split
          · exact ⟨0, by simp, fun a _ => rfl⟩
          · obtain ⟨k, hk, hmem⟩ := ih (memWrite mem r.insn _)
            refine ⟨k + 1, by simp; omega, fun a ha => ?_⟩
            simp only [List.take, List.map_cons, List.mem_cons, not_or] at ha
            rw [hmem a ha.2, memWrite, if_neg ha.1]

/-- Claim C4: if some label reference names an id with no recorded
definition, flush fails; afterwards both fixup tables are empty while
`base`, `code` and `pc` are unchanged, and only halfwords that were fixup
targets patched before the failing reference may have changed (no rollback
of emitted code, no literal pool emitted). -/
theorem gum_C4_unresolved_label_flush (self : GumThumbWriter)
    (h : ∃ r ∈ self.label_refs, ∀ m ∈ self.id_to_address, m.id ≠ r.id) :
    (gum_thumb_writer_flush self).1 = false ∧
    (gum_thumb_writer_flush self).2.label_refs = [] ∧
    (gum_thumb_writer_flush self).2.literal_refs = [] ∧
    (gum_thumb_writer_flush self).2.base = self.base ∧
    (gum_thumb_writer_flush self).2.code = self.code ∧
    (gum_thumb_writer_flush self).2.pc = self.pc ∧
    ∃ k, k ≤ self.label_refs.length ∧
      ∀ a, a ∉ (self.label_refs.take k).map GumThumbLabelRef.insn →
        (gum_thumb_writer_flush self).2.mem a = self.mem a := by
  have hfail :
      (processLabelRefs self.id_to_address self.mem self.label_refs).1 =
        false := by
    obtain ⟨r, hr, hm⟩ := h
    exact processLabelRefs_fails ⟨r, hr, lookupLabelAddress_eq_zero hm⟩
      self.mem
  obtain ⟨k, hk, hmem⟩ :=
    processLabelRefs_mem_bound self.id_to_address self.label_refs self.mem
  unfold gum_thumb_writer_flush gum_thumb_writer_flush_trace
  dsimp only
  rw [if_pos hfail]
  exact ⟨rfl, rfl, rfl, rfl, rfl, rfl, k, hk, hmem⟩

/-- A writer holding one label reference whose id was never defined. -/
def unresolvedLabelWriter : GumThumbWriter :=
  (gum_thumb_writer_put_b_label (gum_thumb_writer_new 0x1000) 7).2

/-- Witness for C4 at a concrete input: a `b label` whose label is never
defined. -/
theorem gum_C4_unresolved_label_flush_witness :
    (gum_thumb_writer_flush unresolvedLabelWriter).1 = false ∧
    (gum_thumb_writer_flush unresolvedLabelWriter).2.label_refs = [] ∧
    (gum_thumb_writer_flush unresolvedLabelWriter).2.literal_refs = [] ∧
    (gum_thumb_writer_flush unresolvedLabelWriter).2.base =
      unresolvedLabelWriter.base ∧
    (gum_thumb_writer_flush unresolvedLabelWriter).2.code =
      unresolvedLabelWriter.code ∧
    (gum_thumb_writer_flush unresolvedLabelWriter).2.pc =
      unresolvedLabelWriter.pc ∧
    ∃ k, k ≤ unresolvedLabelWriter.label_refs.length ∧
      ∀ a, a ∉ (unresolvedLabelWriter.label_refs.take k).map
          GumThumbLabelRef.insn →
        (gum_thumb_writer_flush unresolvedLabelWriter).2.mem a =
          unresolvedLabelWriter.mem a :=
  gum_C4_unresolved_label_flush unresolvedLabelWriter (by decide)

/-- Number of instruction bytes a literal reference occupies and may
patch: 2 for a T1 load (patched in place), 4 for the wide load (its second
halfword, at `insn + 2`, is patched). -/
def refBytes (mem : Nat → Nat) (r : GumThumbLiteralRef) : Nat :=
  if gum_instruction_is_t1_load (mem r.insn) then 2 else 4

/-- Well-formed literal-reference table with respect to memory `mem` and
cursor `code`: every referenced instruction lies wholly below the cursor,
references appear in non-overlapping ascending order, and the recorded
values are 32-bit. -/
def LitRefsWF (mem : Nat → Nat) (code : Nat)
    (refs : List GumThumbLiteralRef) : Prop :=
  (∀ r ∈ refs, r.insn + refBytes mem r ≤ code) ∧
  List.Pairwise (fun r r2 => r.insn + refBytes mem r ≤ r2.insn) refs ∧
  (∀ r ∈ refs, r.val < 4294967296)

instance (mem : Nat → Nat) (code : Nat) (refs : List GumThumbLiteralRef) :
    Decidable (LitRefsWF mem code refs) := by
  unfold LitRefsWF
  infer_instance

/-- Spec-side: the values of `l` not in `seen`, in order of first
occurrence, each listed once. -/
def distinctsAfter (seen : List Nat) : List Nat → List Nat
  | [] => []
  | v :: rest =>
    if v ∈ seen then distinctsAfter seen rest
    else v :: distinctsAfter (seen ++ [v]) rest

/-- Spec-side: index of the first occurrence of `v` in a list (the list's
length when absent). -/
def idxOfD (v : Nat) : List Nat → Nat
  | [] => 0
  | x :: rest => if x = v then 0 else idxOfD v rest + 1

lemma mem_distinctsAfter (v : Nat) :
    ∀ (l seen : List Nat), v ∈ distinctsAfter seen l ↔ v ∈ l ∧ v ∉ seen := by
  intro l
  induction l with
  | nil => simp [distinctsAfter]
  | cons x rest ih =>
    intro seen
    simp only [distinctsAfter]
    split
    · rw [ih seen]
      constructor
      · exact fun ⟨h1, h2⟩ => ⟨List.mem_cons_of_mem x h1, h2⟩
      · rintro ⟨h1, h2⟩
        rcases List.mem_cons.mp h1 with rfl | h1
        · exact absurd (by assumption) h2
        · exact ⟨h1, h2⟩
    · simp only [List.mem_cons, ih (seen ++ [x]), List.mem_append,
        List.mem_singleton]
      constructor
      · rintro (rfl | ⟨h1, h2⟩)
        · exact ⟨Or.inl rfl, by assumption⟩
        · exact ⟨Or.inr h1, fun hs => h2 (Or.inl hs)⟩
      · rintro ⟨rfl | h1, h2⟩
        · exact Or.inl rfl
        · by_cases hx : v = x
          · exact Or.inl hx
          · exact Or.inr ⟨h1, by simp [h2, hx]⟩

lemma distinctsAfter_nodup : ∀ (l seen : List Nat),
    (distinctsAfter seen l).Nodup := by
  intro l
  induction l with
  | nil => intro seen; simp [distinctsAfter]
  | cons x rest ih =>
    intro seen
    simp only [distinctsAfter]
    split
    · exact ih seen
    · refine List.nodup_cons.mpr ⟨fun hx => ?_, ih (seen ++ [x])⟩
      rw [mem_distinctsAfter] at hx
      simp at hx

lemma idxOfD_append_left {v : Nat} {l : List Nat} (h : v ∈ l)
    (l2 : List Nat) : idxOfD v (l ++ l2) = idxOfD v l := by
  induction l with
  | nil => simp at h
  | cons x rest ih =>
    simp only [List.cons_append, idxOfD, List.append_eq]
    split
    · rfl
    · rcases List.mem_cons.mp h with rfl | h
      · simp_all
      · rw [ih h]

lemma idxOfD_append_right {v : Nat} {l : List Nat} (h : v ∉ l)
    (l2 : List Nat) : idxOfD v (l ++ l2) = l.length + idxOfD v l2 := by
  induction l with
  | nil => simp
  | cons x rest ih =>
    simp only [List.cons_append, idxOfD, List.append_eq]
    rw [if_neg (by rintro rfl; exact h (List.mem_cons_self x rest)),
      ih (fun hm => h (List.mem_cons_of_mem x hm))]
    simp only [List.length_cons]
    omega

lemma idxOfD_lt_length {v : Nat} {l : List Nat} (h : v ∈ l) :
    idxOfD v l < l.length := by
  induction l with
  | nil => simp at h
  | cons x rest ih =>
    simp only [idxOfD, List.length_cons]
    split
    · omega
    · rcases List.mem_cons.mp h with rfl | h
      · simp_all
      · exact Nat.succ_lt_succ (ih h)

lemma idxOfD_eq_length {v : Nat} {l : List Nat} (h : v ∉ l) :
    idxOfD v l = l.length := by
  induction l with
  | nil => rfl
  | cons x rest ih =>
    simp only [idxOfD, List.length_cons]
    rw [if_neg (by rintro rfl; exact h (List.mem_cons_self x rest)),
      ih (fun hm => h (List.mem_cons_of_mem x hm))]

lemma memWrite_ne {mem : Nat → Nat} {addr v a : Nat} (h : a ≠ addr) :
    memWrite mem addr v a = mem a := by
  simp [memWrite, h]

lemma memWrite_self (mem : Nat → Nat) (addr v : Nat) :
    memWrite mem addr v addr = v := by
  simp [memWrite]

lemma readSlot_memWrite_below {mem : Nat → Nat} {p v a : Nat} (h : p < a) :
    readSlot (memWrite mem p v) a = readSlot mem a := by
  unfold readSlot
  rw [memWrite_ne (by omega), memWrite_ne (by omega)]

lemma readSlot_writeSlot_self {mem : Nat → Nat} {addr v : Nat}
    (hv : v < 4294967296) : readSlot (writeSlot mem addr v) addr = v := by
  unfold readSlot writeSlot
  rw [memWrite_self, memWrite_ne (by omega), memWrite_self]
  omega

lemma readSlot_writeSlot_other {mem : Nat → Nat} {addr v a : Nat}
    (h1 : a ≠ addr) (h2 : a + 2 ≠ addr) (h3 : a ≠ addr + 2)
    (h4 : a + 2 ≠ addr + 2) :
    readSlot (writeSlot mem addr v) a = readSlot mem a := by
  unfold readSlot writeSlot
  rw [memWrite_ne h3, memWrite_ne h1, memWrite_ne h4, memWrite_ne h2]

lemma findSlotIdx_eq_idxOfD (mem : Nat → Nat) (v : Nat) :
    ∀ (D : List Nat) (addr : Nat),
      (∀ j (hj : j < D.length), readSlot mem (addr + 4 * j) = D.get ⟨j, hj⟩) →
      findSlotIdx mem addr v D.length = idxOfD v D := by
  intro D
  induction D with
  | nil => intro addr _; rfl
  | cons x rest ih =>
    intro addr hs
    have h0 : readSlot mem addr = x := by
      have := hs 0 (by simp)
      simpa using this
    simp only [List.length_cons, findSlotIdx, idxOfD, h0]
    split
    · rfl
    · rw [ih (addr + 4) fun j hj => ?_]
      have := hs (j + 1) (by simpa using Nat.succ_lt_succ hj)
      simpa [Nat.mul_succ, Nat.add_assoc, Nat.add_comm, Nat.add_left_comm]
        using this

/-- The slot a literal reference resolves against is the one at the
first-match index of the scan. -/
lemma processLiteralRef_slot (first : Nat) (r : GumThumbLiteralRef)
    (st : LitFlushState) :
    (processLiteralRef first r st).2 =
      first + 4 * findSlotIdx st.mem first r.val
        ((st.last_slot - first) / 4) := rfl

/-- When the scan finds no existing slot, a slot is allocated at the end
of the pool: `code`/`last_slot` advance by 4, and away from the patched
halfword memory is the input memory extended with the new slot. -/
lemma processLiteralRef_alloc (first : Nat) (r : GumThumbLiteralRef)
    (st : LitFlushState)
    (hk : findSlotIdx st.mem first r.val ((st.last_slot - first) / 4) =
      (st.last_slot - first) / 4) :
    (processLiteralRef first r st).1.last_slot = st.last_slot + 4 ∧
    (processLiteralRef first r st).1.code = st.code + 4 ∧
    ∀ a, a ≠ (if gum_instruction_is_t1_load (st.mem r.insn) then r.insn
        else r.insn + 2) →
      (processLiteralRef first r st).1.mem a =
        writeSlot st.mem
          (first + 4 * findSlotIdx st.mem first r.val
            ((st.last_slot - first) / 4)) r.val a := by
  unfold processLiteralRef
  dsimp only
  by_cases ht : gum_instruction_is_t1_load (st.mem r.insn) = true
  · refine ⟨?_, ?_, ?_⟩
    · rw [if_pos ht, if_pos hk]
    · rw [if_pos ht, if_pos hk]
    · intro a ha
      rw [if_pos ht] at ha
      rw [if_pos ht]
      show memWrite _ r.insn _ a = _
      rw [memWrite_ne ha, if_pos hk]
  · refine ⟨?_, ?_, ?_⟩
    · rw [if_neg ht, if_pos hk]
    · rw [if_neg ht, if_pos hk]
    · intro a ha
      rw [if_neg ht] at ha
      rw [if_neg ht]
      show memWrite _ (r.insn + 2) _ a = _
      rw [memWrite_ne ha, if_pos hk]

/-- When the scan finds an existing slot, nothing is allocated: the scalar
fields are unchanged and away from the patched halfword memory is
unchanged. -/
lemma processLiteralRef_noalloc (first : Nat) (r : GumThumbLiteralRef)
    (st : LitFlushState)
    (hk : findSlotIdx st.mem first r.val ((st.last_slot - first) / 4) ≠
      (st.last_slot - first) / 4) :
    (processLiteralRef first r st).1.last_slot = st.last_slot ∧
    (processLiteralRef first r st).1.code = st.code ∧
    ∀ a, a ≠ (if gum_instruction_is_t1_load (st.mem r.insn) then r.insn
        else r.insn + 2) →
      (processLiteralRef first r st).1.mem a = st.mem a := by
  unfold processLiteralRef
  dsimp only
  by_cases ht : gum_instruction_is_t1_load (st.mem r.insn) = true
  · refine ⟨?_, ?_, ?_⟩
    · rw [if_pos ht, if_neg hk]
    · rw [if_pos ht, if_neg hk]
    · intro a ha
      rw [if_pos ht] at ha
      rw [if_pos ht]
      show memWrite _ r.insn _ a = _
      rw [memWrite_ne ha, if_neg hk]
  · refine ⟨?_, ?_, ?_⟩
    · rw [if_neg ht, if_neg hk]
    · rw [if_neg ht, if_neg hk]
    · intro a ha
      rw [if_neg ht] at ha
      rw [if_neg ht]
      show memWrite _ (r.insn + 2) _ a = _
      rw [memWrite_ne ha, if_neg hk]

/-- Indexing two equal lists at the same position gives the same value. -/
lemma get_congr_list {l l2 : List Nat} (h : l = l2) {j : Nat}
    (hj : j < l.length) (hj2 : j < l2.length) :
    l.get ⟨j, hj⟩ = l2.get ⟨j, hj2⟩ := by
  subst h
  rfl

/-- Read a slot through a memory that agrees with `mem` near `addr`. -/
lemma readSlot_congr {mem mem2 : Nat → Nat} {addr : Nat}
    (h1 : mem2 addr = mem addr) (h2 : mem2 (addr + 2) = mem (addr + 2)) :
    readSlot mem2 addr = readSlot mem addr := by
  unfold readSlot
  rw [h1, h2]

/-- Invariant of the literal-pool loop: starting from a state whose slot
region holds exactly the distinct values `D` already allocated, processing
well-formed references appends the remaining distinct values in order of
first occurrence, never grows the pool for a duplicate, and resolves each
reference against the slot at the first-occurrence index of its value. -/
lemma processLiteralRefs_pool_spec (mem0 : Nat → Nat) (first : Nat) :
    ∀ (refs : List GumThumbLiteralRef) (st : LitFlushState) (D : List Nat),
    (∀ r ∈ refs, r.insn + refBytes mem0 r ≤ first) →
    List.Pairwise (fun r r2 => r.insn + refBytes mem0 r ≤ r2.insn) refs →
    (∀ r ∈ refs, r.val < 4294967296) →
    st.last_slot = first + 4 * D.length →
    st.code = st.last_slot →
    (∀ j (hj : j < D.length), readSlot st.mem (first + 4 * j) = D.get ⟨j, hj⟩) →
    (∀ r ∈ refs, st.mem r.insn = mem0 r.insn) →
    (processLiteralRefs first refs st).1.last_slot =
      first + 4 * (D ++ distinctsAfter D
        (refs.map GumThumbLiteralRef.val)).length ∧
    (processLiteralRefs first refs st).1.code =
      first + 4 * (D ++ distinctsAfter D
        (refs.map GumThumbLiteralRef.val)).length ∧
    (∀ j (hj : j < (D ++ distinctsAfter D
        (refs.map GumThumbLiteralRef.val)).length),
      readSlot (processLiteralRefs first refs st).1.mem (first + 4 * j) =
        (D ++ distinctsAfter D (refs.map GumThumbLiteralRef.val)).get
          ⟨j, hj⟩) ∧
    (processLiteralRefs first refs st).2 =
      refs.map (fun r => first + 4 * idxOfD r.val
        (D ++ distinctsAfter D (refs.map GumThumbLiteralRef.val))) ∧
    (∀ a, a < first →
      (∀ r2 ∈ refs, a ≠ (if gum_instruction_is_t1_load (mem0 r2.insn) then
        r2.insn else r2.insn + 2)) →
      (processLiteralRefs first refs st).1.mem a = st.mem a) := by
  intro refs
  induction refs with
  | nil =>
    intro st D hb hp hv hlast hcode hs hu
    refine ⟨?_, ?_, ?_, rfl, fun a _ _ => rfl⟩
    · simpa [distinctsAfter] using hlast
    · simpa [distinctsAfter] using hcode.trans hlast
    · intro j hj
      have hj2 : j < D.length := by
        simpa [distinctsAfter] using hj
      show readSlot st.mem (first + 4 * j) = _
      have hget : (D ++ distinctsAfter D
          (List.map GumThumbLiteralRef.val ([] : List GumThumbLiteralRef))).get
            ⟨j, hj⟩ = D.get ⟨j, hj2⟩ := by
        simp [List.getElem_append, hj2]
      rw [hget]
      exact hs j hj2
  | cons r rest ih =>
    intro st D hb hp hv hlast hcode hs hu
    have hstep : processLiteralRefs first (r :: rest) st =
        ((processLiteralRefs first rest (processLiteralRef first r st).1).1,
          (processLiteralRef first r st).2 ::
            (processLiteralRefs first rest
              (processLiteralRef first r st).1).2) := rfl
    have hins : st.mem r.insn = mem0 r.insn := hu r (List.mem_cons_self r rest)
    have hrb : r.insn + refBytes mem0 r ≤ first :=
      hb r (List.mem_cons_self r rest)
    have hpatch_lt : (if gum_instruction_is_t1_load (st.mem r.insn) then
        r.insn else r.insn + 2) < first := by
      unfold refBytes at hrb
      rw [hins]
      by_cases ht : gum_instruction_is_t1_load (mem0 r.insn) = true
      · rw [if_pos ht] at hrb ⊢
        omega
      · rw [if_neg ht] at hrb ⊢
        omega
    have hn : (st.last_slot - first) / 4 = D.length := by omega
    have hk : findSlotIdx st.mem first r.val ((st.last_slot - first) / 4) =
        idxOfD r.val D := by
      rw [hn]
      exact findSlotIdx_eq_idxOfD st.mem r.val D first hs
    have hslot := processLiteralRef_slot first r st
    have hpair := List.pairwise_cons.mp hp
    have hpatch_ne : ∀ r2 ∈ rest, r2.insn ≠
        (if gum_instruction_is_t1_load (st.mem r.insn) then r.insn
          else r.insn + 2) := by
      intro r2 h2
      have h := hpair.1 r2 h2
      unfold refBytes at h
      rw [hins]
      by_cases ht : gum_instruction_is_t1_load (mem0 r.insn) = true
      · rw [if_pos ht] at h ⊢
        omega
      · rw [if_neg ht] at h ⊢
        omega
    by_cases hmem : r.val ∈ D
    · -- duplicate value: reuse the existing slot, no allocation
      have hidx : idxOfD r.val D < D.length := idxOfD_lt_length hmem
      obtain ⟨hl1, hc1, hm1⟩ := processLiteralRef_noalloc first r st
        (by rw [hk, hn]; omega)
      have hDtot : distinctsAfter D ((r :: rest).map GumThumbLiteralRef.val) =
          distinctsAfter D (rest.map GumThumbLiteralRef.val) := by
        simp only [List.map_cons, distinctsAfter, if_pos hmem]
      have hih := ih (processLiteralRef first r st).1 D
        (fun r2 h2 => hb r2 (List.mem_cons_of_mem r h2))
        hpair.2
        (fun r2 h2 => hv r2 (List.mem_cons_of_mem r h2))
        (by rw [hl1]; exact hlast)
        (by rw [hc1, hl1]; exact hcode)
        (by
          intro j hj
          rw [readSlot_congr (hm1 _ (by omega)) (hm1 _ (by omega))]
          exact hs j hj)
        (by
          intro r2 h2
          rw [hm1 r2.insn (hpatch_ne r2 h2)]
          exact hu r2 (List.mem_cons_of_mem r h2))
      rw [hstep]
      refine ⟨?_, ?_, ?_, ?_, ?_⟩
      · rw [hDtot]
        exact hih.1
      · rw [hDtot]
        exact hih.2.1
      · intro j hj
        have hj2 := hj
        rw [hDtot] at hj2
        rw [get_congr_list (by rw [hDtot]) hj hj2]
        exact hih.2.2.1 j hj2
      · show (processLiteralRef first r st).2 :: _ = _
        simp only [hDtot]
        rw [List.map_cons, hih.2.2.2.1, hslot, hk]
        congr 1
        congr 1
        rw [idxOfD_append_left hmem]
      · intro a ha hane
        show (processLiteralRefs first rest
          (processLiteralRef first r st).1).1.mem a = st.mem a
        rw [hih.2.2.2.2 a ha
          (fun r2 h2 => hane r2 (List.mem_cons_of_mem r h2))]
        exact hm1 a (by
          rw [hins]
          exact hane r (List.mem_cons_self r rest))
    · -- new value: allocate a slot at the end of the pool
      have hidx : idxOfD r.val D = D.length := idxOfD_eq_length hmem
      obtain ⟨hl1, hc1, hm1⟩ := processLiteralRef_alloc first r st
        (by rw [hk, hn, hidx])
      have hDtot : distinctsAfter D ((r :: rest).map GumThumbLiteralRef.val) =
          r.val :: distinctsAfter (D ++ [r.val])
            (rest.map GumThumbLiteralRef.val) := by
        simp only [List.map_cons, distinctsAfter, if_neg hmem]
      have happend : D ++ distinctsAfter D
          ((r :: rest).map GumThumbLiteralRef.val) =
          (D ++ [r.val]) ++ distinctsAfter (D ++ [r.val])
            (rest.map GumThumbLiteralRef.val) := by
        rw [hDtot]
        simp
      have hslotaddr : first + 4 * findSlotIdx st.mem first r.val
          ((st.last_slot - first) / 4) = st.last_slot := by
        rw [hk, hidx]
        omega
      have hih := ih (processLiteralRef first r st).1 (D ++ [r.val])
        (fun r2 h2 => hb r2 (List.mem_cons_of_mem r h2))
        hpair.2
        (fun r2 h2 => hv r2 (List.mem_cons_of_mem r h2))
        (by
          rw [hl1, hlast]
          simp only [List.length_append, List.length_singleton]
          omega)
        (by rw [hc1, hl1, hcode])
        (by
          intro j hj
          rw [readSlot_congr (hm1 _ (by omega)) (hm1 _ (by omega)), hslotaddr]
          simp only [List.length_append, List.length_singleton] at hj
          by_cases hjD : j < D.length
          · rw [readSlot_writeSlot_other (by omega) (by omega) (by omega)
              (by omega)]
            rw [hs j hjD]
            have hget : ((D ++ [r.val]).get ⟨j, by
                simp only [List.length_append, List.length_singleton]
                omega⟩ : Nat) = D.get ⟨j, hjD⟩ := by
              simp [List.getElem_append, hjD]
            rw [← hget]
          · have hj_eq : j = D.length := by omega
            subst hj_eq
            rw [show first + 4 * D.length = st.last_slot by omega,
              readSlot_writeSlot_self (hv r (List.mem_cons_self r rest))]
            simp)
        (by
          intro r2 h2
          have hr2b := hb r2 (List.mem_cons_of_mem r h2)
          have h2b : 2 ≤ refBytes mem0 r2 := by
            unfold refBytes
            split <;> omega
          rw [hm1 r2.insn (hpatch_ne r2 h2), hslotaddr]
          unfold writeSlot
          rw [memWrite_ne (by omega), memWrite_ne (by omega)]
          exact hu r2 (List.mem_cons_of_mem r h2))
      rw [hstep]
      refine ⟨?_, ?_, ?_, ?_, ?_⟩
      · rw [happend]
        exact hih.1
      · rw [happend]
        exact hih.2.1
      · intro j hj
        have hj2 := hj
        rw [happend] at hj2
        rw [get_congr_list (by rw [happend]) hj hj2]
        exact hih.2.2.1 j hj2
      · show (processLiteralRef first r st).2 :: _ = _
        simp only [happend]
        rw [List.map_cons, hih.2.2.2.1, hslot, hk]
        congr 1
        congr 1
        rw [List.append_assoc, idxOfD_append_right hmem,
          List.singleton_append]
        simp only [idxOfD, eq_self_iff_true, if_true, Nat.add_zero, hidx]
      · intro a ha hane
        show (processLiteralRefs first rest
          (processLiteralRef first r st).1).1.mem a = st.mem a
        rw [hih.2.2.2.2 a ha
          (fun r2 h2 => hane r2 (List.mem_cons_of_mem r h2))]
        rw [hm1 a (by
          rw [hins]
          exact hane r (List.mem_cons_self r rest)), hslotaddr]
        unfold writeSlot
        rw [memWrite_ne (by omega), memWrite_ne (by omega)]

lemma refBytes_ge_two (mem : Nat → Nat) (r : GumThumbLiteralRef) :
    2 ≤ refBytes mem r := by
  unfold refBytes
  split <;> omega

/-- With no pending label references and a non-empty literal table, flush
is exactly the literal-pool section. -/
lemma flush_trace_no_labels (self : GumThumbWriter)
    (h0 : self.label_refs = [])
    (hlen : self.literal_refs.length ≠ 0) :
    gum_thumb_writer_flush_trace self =
      flushPool { self with label_refs := ([] : List GumThumbLabelRef) } := by
  unfold gum_thumb_writer_flush_trace
  rw [h0]
  dsimp only [processLabelRefs]
  rw [if_neg (by simp), if_pos hlen]

/-- Address at which the literal pool starts at flush: the cursor, plus 2
when the alignment nop is emitted. -/
def poolFirstAddr (self : GumThumbWriter) : Nat :=
  if (self.literal_refs.any fun r =>
        gum_instruction_is_t1_load (self.mem r.insn)) &&
      decide (self.pc % 4 ≠ 0) then
    self.code + 2
  else self.code

/-- Full characterisation of the literal-pool section on a well-formed
writer state. -/
lemma flushPool_spec (w : GumThumbWriter)
    (hwf : LitRefsWF w.mem w.code w.literal_refs) :
    (flushPool w).ok = true ∧
    (flushPool w).aligned_nop =
      ((w.literal_refs.any fun r =>
          gum_instruction_is_t1_load (w.mem r.insn)) &&
        decide (w.pc % 4 ≠ 0)) ∧
    (flushPool w).pool_first = some (poolFirstAddr w) ∧
    (flushPool w).w.literal_refs = [] ∧
    (flushPool w).w.code = poolFirstAddr w +
      4 * (distinctsAfter []
        (w.literal_refs.map GumThumbLiteralRef.val)).length ∧
    (∀ j (hj : j < (distinctsAfter []
        (w.literal_refs.map GumThumbLiteralRef.val)).length),
      readSlot (flushPool w).w.mem (poolFirstAddr w + 4 * j) =
        (distinctsAfter []
          (w.literal_refs.map GumThumbLiteralRef.val)).get ⟨j, hj⟩) ∧
    (flushPool w).used_slots =
      w.literal_refs.map (fun r => poolFirstAddr w +
        4 * idxOfD r.val (distinctsAfter []
          (w.literal_refs.map GumThumbLiteralRef.val))) ∧
    (((w.literal_refs.any fun r =>
          gum_instruction_is_t1_load (w.mem r.insn)) &&
        decide (w.pc % 4 ≠ 0)) = true →
      (flushPool w).w.mem w.code = 0x46C0) := by
  obtain ⟨hb, hp, hv⟩ := hwf
  have hpatch_code : ∀ r2 ∈ w.literal_refs, w.code ≠
      (if gum_instruction_is_t1_load (w.mem r2.insn) then r2.insn
        else r2.insn + 2) := by
    intro r2 h2
    have h := hb r2 h2
    unfold refBytes at h
    by_cases ht : gum_instruction_is_t1_load (w.mem r2.insn) = true
    · rw [if_pos ht] at h ⊢
      omega
    · rw [if_neg ht] at h ⊢
      omega
  by_cases hdn : ((w.literal_refs.any fun r =>
      gum_instruction_is_t1_load (w.mem r.insn)) &&
        decide (w.pc % 4 ≠ 0)) = true
  · -- alignment nop emitted; pool starts at code + 2
    have hfirst : poolFirstAddr w = w.code + 2 := by
      unfold poolFirstAddr
      rw [if_pos hdn]
    have hred : flushPool w =
        { ok := true
          w := { w with
                 mem := (processLiteralRefs (w.code + 2) w.literal_refs
                   ⟨memWrite w.mem w.code (0x46C0 % 65536), w.code + 2,
                     w.pc + 2, w.emitted + 2, w.code + 2⟩).1.mem
                 code := (processLiteralRefs (w.code + 2) w.literal_refs
                   ⟨memWrite w.mem w.code (0x46C0 % 65536), w.code + 2,
                     w.pc + 2, w.emitted + 2, w.code + 2⟩).1.code
                 pc := (processLiteralRefs (w.code + 2) w.literal_refs
                   ⟨memWrite w.mem w.code (0x46C0 % 65536), w.code + 2,
                     w.pc + 2, w.emitted + 2, w.code + 2⟩).1.pc
                 emitted := (processLiteralRefs (w.code + 2) w.literal_refs
                   ⟨memWrite w.mem w.code (0x46C0 % 65536), w.code + 2,
                     w.pc + 2, w.emitted + 2, w.code + 2⟩).1.emitted
                 literal_refs := [] }
          pool_first := some (w.code + 2)
          aligned_nop := true
          used_slots := (processLiteralRefs (w.code + 2) w.literal_refs
            ⟨memWrite w.mem w.code (0x46C0 % 65536), w.code + 2,
              w.pc + 2, w.emitted + 2, w.code + 2⟩).2 } := by
      unfold flushPool
      dsimp only
      rw [hdn]
      rfl
    have hups := processLiteralRefs_pool_spec w.mem (w.code + 2)
      w.literal_refs
      ⟨memWrite w.mem w.code (0x46C0 % 65536), w.code + 2, w.pc + 2,
        w.emitted + 2, w.code + 2⟩ []
      (fun r hr => by have := hb r hr; omega)
      hp hv
      (by simp)
      rfl
      (fun j hj => absurd hj (by simp))
      (fun r hr => by
        show memWrite w.mem w.code (0x46C0 % 65536) r.insn = w.mem r.insn
        have h2b := refBytes_ge_two w.mem r
        have := hb r hr
        exact memWrite_ne (by omega))
    rw [hred, hfirst]
    simp only [List.nil_append] at hups
    refine ⟨rfl, hdn.symm, rfl, rfl, hups.1.symm ▸ hups.2.1, hups.2.2.1,
      hups.2.2.2.1, fun _ => ?_⟩
    · show (processLiteralRefs (w.code + 2) w.literal_refs _).1.mem w.code =
        0x46C0
      rw [hups.2.2.2.2 w.code (by omega) hpatch_code]
      rw [memWrite_self]
  · -- no alignment nop; pool starts at the cursor
    have hfirst : poolFirstAddr w = w.code := by
      unfold poolFirstAddr
      rw [if_neg hdn]
    have hred : flushPool w =
        { ok := true
          w := { w with
                 mem := (processLiteralRefs w.code w.literal_refs
                   ⟨w.mem, w.code, w.pc, w.emitted, w.code⟩).1.mem
                 code := (processLiteralRefs w.code w.literal_refs
                   ⟨w.mem, w.code, w.pc, w.emitted, w.code⟩).1.code
                 pc := (processLiteralRefs w.code w.literal_refs
                   ⟨w.mem, w.code, w.pc, w.emitted, w.code⟩).1.pc
                 emitted := (processLiteralRefs w.code w.literal_refs
                   ⟨w.mem, w.code, w.pc, w.emitted, w.code⟩).1.emitted
                 literal_refs := [] }
          pool_first := some w.code
          aligned_nop := false
          used_slots := (processLiteralRefs w.code w.literal_refs
            ⟨w.mem, w.code, w.pc, w.emitted, w.code⟩).2 } := by
      unfold flushPool
      dsimp only
      rw [Bool.of_not_eq_true hdn]
      rfl
    have hups := processLiteralRefs_pool_spec w.mem w.code
      w.literal_refs ⟨w.mem, w.code, w.pc, w.emitted, w.code⟩ []
      hb hp hv
      (by simp)
      rfl
      (fun j hj => absurd hj (by simp))
      (fun r hr => rfl)
    rw [hred, hfirst]
    simp only [List.nil_append] at hups
    exact ⟨rfl, (Bool.of_not_eq_true hdn).symm, rfl, rfl,
      hups.1.symm ▸ hups.2.1, hups.2.2.1,
      hups.2.2.2.1, fun hc => absurd hc hdn⟩

/-- Claim C5: after a successful flush with a non-empty literal table on a
well-formed state with no pending label references, the pool holds exactly
one 32-bit slot per distinct recorded value, in order of first occurrence
(`distinctsAfter [] values`), and every reference is resolved against the
slot at the first-occurrence index of its value — duplicates reuse the
existing slot instead of allocating a new one. -/
theorem gum_C5_literal_pool_dedup (self : GumThumbWriter)
    (h0 : self.label_refs = [])
    (h1 : self.literal_refs ≠ [])
    (hwf : LitRefsWF self.mem self.code self.literal_refs) :
    gum_thumb_writer_flush self =
      ((gum_thumb_writer_flush_trace self).ok,
        (gum_thumb_writer_flush_trace self).w) ∧
    (gum_thumb_writer_flush_trace self).ok = true ∧
    (gum_thumb_writer_flush_trace self).w.literal_refs = [] ∧
    (gum_thumb_writer_flush_trace self).pool_first =
      some (poolFirstAddr self) ∧
    (gum_thumb_writer_flush_trace self).w.code = poolFirstAddr self +
      4 * (distinctsAfter []
        (self.literal_refs.map GumThumbLiteralRef.val)).length ∧
    (∀ j (hj : j < (distinctsAfter []
        (self.literal_refs.map GumThumbLiteralRef.val)).length),
      readSlot (gum_thumb_writer_flush_trace self).w.mem
          (poolFirstAddr self + 4 * j) =
        (distinctsAfter []
          (self.literal_refs.map GumThumbLiteralRef.val)).get ⟨j, hj⟩) ∧
    (gum_thumb_writer_flush_trace self).used_slots =
      self.literal_refs.map (fun r => poolFirstAddr self +
        4 * idxOfD r.val (distinctsAfter []
          (self.literal_refs.map GumThumbLiteralRef.val))) ∧
    (distinctsAfter []
      (self.literal_refs.map GumThumbLiteralRef.val)).Nodup ∧
    (∀ v, v ∈ distinctsAfter []
        (self.literal_refs.map GumThumbLiteralRef.val) ↔
      v ∈ self.literal_refs.map GumThumbLiteralRef.val) := by
  have hlen : self.literal_refs.length ≠ 0 :=
    fun h => h1 (List.length_eq_zero.mp h)
  have hft := flush_trace_no_labels self h0 hlen
  have hspec := flushPool_spec
    { self with label_refs := ([] : List GumThumbLabelRef) } hwf
  refine ⟨rfl, ?_, ?_, ?_, ?_, ?_, ?_, distinctsAfter_nodup _ [], fun v => ?_⟩
  · rw [hft]
    exact hspec.1
  · rw [hft]
    exact hspec.2.2.2.1
  · rw [hft]
    exact hspec.2.2.1
  · rw [hft]
    exact hspec.2.2.2.2.1
  · intro j hj
    rw [hft]
    exact hspec.2.2.2.2.2.1 j hj
  · rw [hft]
    exact hspec.2.2.2.2.2.2.1
  · rw [mem_distinctsAfter]
    simp

/-- Claim C8: at a flush with a non-empty literal table, the single
alignment nop (0x46C0) is emitted immediately before the pool exactly when
some recorded reference's instruction halfword is a T1 load
(`(h &&& 0xF800) = 0x4800`) and `pc` is not word-aligned; the pool then
starts 2 bytes after the cursor, with the nop halfword stored at the old
cursor; otherwise the pool starts at the cursor and no nop is emitted. -/
theorem gum_C8_alignment_nop (self : GumThumbWriter)
    (h0 : self.label_refs = [])
    (h1 : self.literal_refs ≠ [])
    (hwf : LitRefsWF self.mem self.code self.literal_refs) :
    ((gum_thumb_writer_flush_trace self).aligned_nop = true ↔
      ((self.literal_refs.any fun r =>
          gum_instruction_is_t1_load (self.mem r.insn)) = true ∧
        self.pc % 4 ≠ 0)) ∧
    (gum_thumb_writer_flush_trace self).pool_first =
      some (poolFirstAddr self) ∧
    ((gum_thumb_writer_flush_trace self).aligned_nop = true →
      poolFirstAddr self = self.code + 2 ∧
      (gum_thumb_writer_flush_trace self).w.mem self.code = 0x46C0) ∧
    ((gum_thumb_writer_flush_trace self).aligned_nop = false →
      poolFirstAddr self = self.code) := by
  have hlen : self.literal_refs.length ≠ 0 :=
    fun h => h1 (List.length_eq_zero.mp h)
  have hft := flush_trace_no_labels self h0 hlen
  have hspec := flushPool_spec
    { self with label_refs := ([] : List GumThumbLabelRef) } hwf
  have ha : (gum_thumb_writer_flush_trace self).aligned_nop =
      ((self.literal_refs.any fun r =>
          gum_instruction_is_t1_load (self.mem r.insn)) &&
        decide (self.pc % 4 ≠ 0)) := by
    rw [hft]
    exact hspec.2.1
  refine ⟨?_, ?_, ?_, ?_⟩
  · rw [ha, Bool.and_eq_true, decide_eq_true_eq]
  · rw [hft]
    exact hspec.2.2.1
  · intro hnop
    rw [ha] at hnop
    refine ⟨by unfold poolFirstAddr; rw [if_pos hnop], ?_⟩
    rw [hft]
    exact hspec.2.2.2.2.2.2.2 hnop
  · intro hnop
    rw [ha] at hnop
    unfold poolFirstAddr
    rw [if_neg (by rw [hnop]; simp)]

/-- A writer with three T1 `ldr` literal references, two of them sharing
one value. -/
def dedupLdrWriter : GumThumbWriter :=
  let w := gum_thumb_writer_new 0x1000
  let w := (gum_thumb_writer_put_ldr_reg_u32 w 0 0xDEADBEEF).2
  let w := (gum_thumb_writer_put_ldr_reg_u32 w 1 0xDEADBEEF).2
  (gum_thumb_writer_put_ldr_reg_u32 w 2 0x11223344).2

/-- Witness for C5 at a concrete input: three loads with two distinct
values produce a two-slot pool with both duplicate references resolved to
the first slot. -/
theorem gum_C5_literal_pool_dedup_witness :
    (gum_thumb_writer_flush_trace dedupLdrWriter).ok = true ∧
    (gum_thumb_writer_flush_trace dedupLdrWriter).w.code =
      poolFirstAddr dedupLdrWriter + 4 * 2 ∧
    (gum_thumb_writer_flush_trace dedupLdrWriter).used_slots =
      [poolFirstAddr dedupLdrWriter, poolFirstAddr dedupLdrWriter,
        poolFirstAddr dedupLdrWriter + 4] := by
  have h := gum_C5_literal_pool_dedup dedupLdrWriter (by decide) (by decide)
    (by decide)
  refine ⟨h.2.1, ?_, ?_⟩
  · have := h.2.2.2.2.1
    rwa [show (distinctsAfter []
      (dedupLdrWriter.literal_refs.map GumThumbLiteralRef.val)).length = 2
      from by decide] at this
  · have := h.2.2.2.2.2.2.1
    rw [this]
    decide

/-- A writer with a single T1 `ldr` at an unaligned pc. -/
def singleLdrWriter : GumThumbWriter :=
  (gum_thumb_writer_put_ldr_reg_u32 (gum_thumb_writer_new 0x1000) 0
    0xCAFEBABE).2

/-- Witness for C8 at a concrete input: one T1 load leaves the pc
word-unaligned at flush, so exactly one alignment nop is emitted before
the pool. -/
theorem gum_C8_alignment_nop_witness :
    (gum_thumb_writer_flush_trace singleLdrWriter).aligned_nop = true ∧
    poolFirstAddr singleLdrWriter = singleLdrWriter.code + 2 ∧
    (gum_thumb_writer_flush_trace singleLdrWriter).w.mem
      singleLdrWriter.code = 0x46C0 := by
  have h := gum_C8_alignment_nop singleLdrWriter (by decide) (by decide)
    (by decide)
  have hnop : (gum_thumb_writer_flush_trace singleLdrWriter).aligned_nop =
      true := h.1.mpr (by decide)
  exact ⟨hnop, (h.2.2.1 hnop).1, (h.2.2.1 hnop).2⟩

end GumThumbWriterModel
